import Mathlib

/-!
# Dashboard UI script (`src/js/main.js`)

A shallow embedding of the five behaviours wired by `initializeApp`
(sidebar toggle, active link marker, tooltip initializer, header updater,
profile dropdown) together with the small part of the host environment
they touch: elements with a token list, content attributes, text and an
inline left margin; event listeners and bubbling dispatch; property reads
on an object literal; `lastIndexOf`, `substring` and `trim` on strings.

Modelling conventions.
* A page is a record of the regions the script looks up.  The regions found
  by id are distinct elements (an element has one id); the first
  `.main-content` element and the navigation anchors are taken to be
  distinct from them and from each other.
* A lookup that finds nothing is `none` (JavaScript `null`); using `null`
  as an element raises a `TypeError`, so every behaviour lives in `Except`.
* Strings are sequences of characters; the only character searched for is
  `/`, so code units and code points agree on every index used here.
-/

namespace DashboardUI

/-! ## Host environment -/

/-- A JavaScript exception. -/
inductive JSError where
  | typeError (msg : String)
  deriving DecidableEq, Repr

/-- Computations that may raise. -/
abbrev JS (α : Type) := Except JSError α

/-- An element of the page: its class token list, its content attributes,
its text content and its inline `style.marginLeft`. -/
structure Element where
  classList : List String
  attributes : List (String × String)
  textContent : String
  marginLeft : String
  deriving DecidableEq, Repr

/-- Dereferencing the result of a lookup: `null.x` raises. -/
def deref {α : Type} (what : String) : Option α → JS α
  | some e => .ok e
  | none => .error (.typeError what)

/-- `el.classList.contains(token)`. -/
def Element.contains (e : Element) (token : String) : Bool :=
  decide (token ∈ e.classList)

/-- `el.classList.add(token)`: appended unless already there. -/
def Element.add (e : Element) (token : String) : Element :=
  if token ∈ e.classList then e else { e with classList := e.classList ++ [token] }

/-- `el.classList.remove(token)`. -/
def Element.remove (e : Element) (token : String) : Element :=
  { e with classList := e.classList.filter (fun t => t ≠ token) }

/-- `el.classList.toggle(token)`: removes a present token and returns
`false`, adds an absent one and returns `true`. -/
def Element.toggle (e : Element) (token : String) : Element × Bool :=
  if token ∈ e.classList then (e.remove token, false)
  else ({ e with classList := e.classList ++ [token] }, true)

/-- `el.classList.toggle(token, force)`: with `force` true the token is
only ever added, with `force` false only ever removed. -/
def Element.toggleForce (e : Element) (token : String) (force : Bool) : Element × Bool :=
  if token ∈ e.classList then
    if force then (e, true) else (e.remove token, false)
  else
    if force then ({ e with classList := e.classList ++ [token] }, true) else (e, false)

/-- Replace the value of the first attribute called `name`, or append it. -/
def setAttr : List (String × String) → String → String → List (String × String)
  | [], name, value => [(name, value)]
  | (n, v) :: rest, name, value =>
    if n = name then (n, value) :: rest else (n, v) :: setAttr rest name value

/-- Value of the first attribute called `name`. -/
def getAttr : List (String × String) → String → Option String
  | [], _ => none
  | (n, v) :: rest, name => if n = name then some v else getAttr rest name

/-- `el.setAttribute(name, value)` with a string value. -/
def Element.setAttribute (e : Element) (name value : String) : Element :=
  { e with attributes := setAttr e.attributes name value }

/-- `el.getAttribute(name)`; `none` is `null`. -/
def Element.getAttribute (e : Element) (name : String) : Option String :=
  getAttr e.attributes name

/-- String conversion of a boolean passed where a string is expected. -/
def boolToString : Bool → String
  | true => "true"
  | false => "false"

/-- `el.textContent = v` where `v` may be `undefined` (`none`): the
attribute is a nullable string, `undefined` is read as null and null as
the empty string. -/
def Element.setTextContent (e : Element) (v : Option String) : Element :=
  { e with textContent := v.getD "" }

/-- An `a` element of the page, with what the two navigation selectors and
`link.querySelector('span')` see of its surroundings. -/
structure Anchor where
  elem : Element
  /-- some ancestor carries the class `sidebar-menu-item` -/
  inSidebarMenuItem : Bool
  /-- some ancestor carries the class `sidebar-menu` -/
  inSidebarMenu : Bool
  /-- text content of the first `span` descendant, if there is one -/
  span : Option String
  deriving DecidableEq, Repr

/-- Elements an event can pass through: the regions of the page, its
anchors, and any other element. -/
inductive Node where
  | sidebar | mainContent | desktopToggle | mobileToggle
  | titleEl | subtitleEl | tagEl
  | wrapper | toggleButton | dropdownMenu
  | anchor (i : Nat)
  | other (n : Nat)
  deriving DecidableEq, Repr

/-- What a listener can be registered on: an element or the document. -/
inductive Target where
  | element (n : Node)
  | document
  deriving DecidableEq, Repr

/-- The four listener bodies of the script. -/
inductive Handler where
  | toggleSidebar
  | onToggleButtonClick
  | onDocumentClick
  | onDocumentKeydown
  deriving DecidableEq, Repr

/-- One `addEventListener(type, handler)` registration on `target`. -/
structure Listener where
  target : Target
  evType : String
  handler : Handler
  deriving DecidableEq, Repr

/-- An event: its type, its `key` (for key events) and the chain of nodes
from `event.target` up to, but excluding, the document. -/
structure Event where
  evType : String
  key : String
  path : List Node
  deriving DecidableEq, Repr

/-- The page state the script reads and writes. -/
structure Page where
  /-- `window.location.pathname` -/
  pathname : String
  /-- `#app-sidebar` -/
  sidebar : Option Element
  /-- first `.main-content` -/
  mainContent : Option Element
  /-- `#sidebar-toggle` -/
  desktopToggle : Option Element
  /-- `#global-mobile-sidebar-toggle` -/
  mobileToggle : Option Element
  /-- all `a` elements, in document order -/
  anchors : List Anchor
  /-- `#page-title` -/
  titleEl : Option Element
  /-- `#page-subtitle` -/
  subtitleEl : Option Element
  /-- `#page-tag` -/
  tagEl : Option Element
  /-- `#user-profile-dropdown-wrapper` -/
  wrapper : Option Element
  /-- `#user-profile-button` -/
  toggleButton : Option Element
  /-- `#user-profile-dropdown` -/
  dropdownMenu : Option Element
  /-- registered listeners, in registration order -/
  listeners : List Listener
  /-- lines written by `console.error` -/
  console : List String
  deriving DecidableEq, Repr

/-- `target.addEventListener(type, handler)`. -/
def Page.addEventListener (p : Page) (target : Target) (evType : String) (h : Handler) : Page :=
  { p with listeners := p.listeners ++ [⟨target, evType, h⟩] }

/-! ## Sidebar toggle -/

/-- The `toggleSidebar` closure of `initializeSidebarToggle` (main.js, lines 15-30). -/
def toggleSidebar (p : Page) : JS Page := do
  let sidebar ← deref "sidebar" p.sidebar
  let mainContent ← deref "mainContent" p.mainContent
  let sidebar := (sidebar.toggle "collapsed").1
  let isCollapsed := sidebar.contains "collapsed"
  let isExpanded := !isCollapsed
  let desktopToggle :=
    match p.desktopToggle with
    | some d => some (d.setAttribute "aria-expanded" (boolToString isExpanded))
    | none => none
  let mainContent :=
    if isCollapsed then { mainContent with marginLeft := "3.5rem" }
    else { mainContent with marginLeft := "14rem" }
  pure { p with sidebar := some sidebar, desktopToggle := desktopToggle,
                mainContent := some mainContent }

/-- The function `initializeSidebarToggle` (main.js, lines 4-38). -/
def initializeSidebarToggle (p : Page) : JS Page :=
  if p.sidebar.isNone || p.mainContent.isNone then
    pure { p with console := p.console ++
      ["Sidebar or Main Content element not found. Cannot initialize toggle."] }
  else
    let p := if p.desktopToggle.isSome then
      p.addEventListener (.element .desktopToggle) "click" .toggleSidebar else p
    let p := if p.mobileToggle.isSome then
      p.addEventListener (.element .mobileToggle) "click" .toggleSidebar else p
    pure p

/-! ## Strings -/

/-- Scan for the last occurrence of `c`: `i` is the index of the head of the
remaining characters, `acc` the last index found so far. -/
def lastIndexOfAux (c : Char) : List Char → Nat → Int → Int
  | [], _, acc => acc
  | x :: xs, i, acc => lastIndexOfAux c xs (i + 1) (if x = c then (i : Int) else acc)

/-- `s.lastIndexOf(c)` for a one-character search string: the highest index
at which `c` occurs, `-1` when it does not occur. -/
def lastIndexOf (s : String) (c : Char) : Int :=
  lastIndexOfAux c s.data 0 (-1)

/-- `s.substring(start)`: a negative start counts as `0`, one beyond the
end as the length. -/
def substring (s : String) (start : Int) : String :=
  String.mk (s.data.drop start.toNat)

/-- The expression `path.substring(path.lastIndexOf('/') + 1)` shared by
`setActiveNavLink` and `updatePageHeader`. -/
def pageIdentifier (path : String) : String :=
  substring path (lastIndexOf path '/' + 1)

/-- `a || b` on strings: the empty string is the only falsy string. -/
def orString (a b : String) : String :=
  if a = "" then b else a

/-- White space and line terminators of ECMAScript, the characters
`String.prototype.trim` strips. -/
def isJSWhiteSpace (c : Char) : Bool :=
  let n := c.toNat
  n == 0x9 || n == 0xA || n == 0xB || n == 0xC || n == 0xD || n == 0x20 || n == 0xA0 ||
  n == 0x1680 || (0x2000 ≤ n && n ≤ 0x200A) || n == 0x2028 || n == 0x2029 ||
  n == 0x202F || n == 0x205F || n == 0x3000 || n == 0xFEFF

/-- `s.trim()`. -/
def trim (s : String) : String :=
  String.mk ((s.data.dropWhile isJSWhiteSpace).reverse.dropWhile isJSWhiteSpace).reverse

/-! ## Navigation anchors -/

/-- Whether an anchor is matched by one of the two selectors the script
passes to `querySelectorAll`. -/
def Anchor.isMatch (a : Anchor) (selector : String) : Bool :=
  if selector = ".sidebar-menu-item a" then a.inSidebarMenuItem
  else if selector = ".sidebar-menu a" then a.inSidebarMenu
  else false

/-- `document.querySelectorAll(selector)`: the positions of the matched
anchors, in document order. -/
def Page.querySelectorAll (p : Page) (selector : String) : List Nat :=
  (List.range p.anchors.length).filter fun i =>
    match p.anchors[i]? with
    | some a => a.isMatch selector
    | none => false

/-- Write back a mutated anchor. -/
def Page.setAnchor (p : Page) (i : Nat) (a : Anchor) : Page :=
  { p with anchors := p.anchors.set i a }

/-- `nodeList.forEach(body)`: the body runs on each node in turn, on the
page as the earlier runs left it. -/
def forEach : List Nat → (Nat → Page → JS Page) → Page → JS Page
  | [], _, p => .ok p
  | i :: rest, body, p =>
    match body i p with
    | .ok p1 => forEach rest body p1
    | .error e => .error e

/-- The function `setActiveNavLink` (main.js, lines 43-60). -/
def setActiveNavLink (p : Page) : JS Page :=
  let path := p.pathname
  let currentPage := pageIdentifier path
  let navLinks := p.querySelectorAll ".sidebar-menu-item a"
  forEach navLinks (fun i p => do
    let link ← deref "link" p.anchors[i]?
    let linkPage := link.elem.getAttribute "href"
    let isDashboard := linkPage == some "dashboard.html" &&
      (currentPage == "index.html" || currentPage == "")
    if isDashboard || linkPage == some currentPage then
      let e := link.elem.add "active"
      let e := e.setAttribute "aria-current" "page"
      pure (p.setAnchor i { link with elem := e })
    else
      pure p) p

/-- The function `initializeSidebarTooltips` (main.js, lines 67-75). -/
def initializeSidebarTooltips (p : Page) : JS Page :=
  let navLinks := p.querySelectorAll ".sidebar-menu a"
  forEach navLinks (fun i p => do
    let link ← deref "link" p.anchors[i]?
    match link.span with
    | some text =>
      pure (p.setAnchor i { link with elem := link.elem.setAttribute "data-tooltip" (trim text) })
    | none => pure p) p

/-! ## Page header -/

/-- A header descriptor, the shape of the entries of `pageDetails`. -/
structure Descriptor where
  title : String
  subtitle : String
  showTag : Bool
  deriving DecidableEq, Repr

/-- What a property read on the `pageDetails` object can produce. -/
inductive JSValue where
  | undefined
  | descriptor (d : Descriptor)
  /-- a member inherited from `Object.prototype`: a built-in function, or
  the prototype object itself for `__proto__` -/
  | builtin (name : String)
  deriving DecidableEq, Repr

/-- Own properties of the object literal `pageDetails`. -/
def pageDetails : List (String × Descriptor) :=
  [ ("index.html", ⟨"Dashboard", "Manage your crypto and fiat balances", true⟩),
    ("dashboard.html", ⟨"Dashboard", "Manage your crypto and fiat balances", true⟩),
    ("balances.html", ⟨"Balances", "View your asset distribution", false⟩),
    ("convert.html", ⟨"Convert", "Swap your assets with zero fees", false⟩),
    ("withdraw.html", ⟨"Withdraw", "Send your assets to an external wallet", false⟩),
    ("cards.html", ⟨"Cards", "Manage your virtual and physical cards", false⟩),
    ("transaction-history.html",
      ⟨"Transaction History", "Review your past account activity", false⟩),
    ("security-center.html",
      ⟨"Security Center", "Manage your account security settings", false⟩),
    ("settings.html", ⟨"Settings", "Configure your application preferences", false⟩),
    ("profile.html", ⟨"Profile", "View and edit your personal information", false⟩) ]

/-- Property names every object created by an object literal inherits from
`Object.prototype`. -/
def objectPrototypeKeys : List String :=
  [ "constructor", "hasOwnProperty", "isPrototypeOf", "propertyIsEnumerable",
    "toLocaleString", "toString", "valueOf", "__proto__",
    "__defineGetter__", "__defineSetter__", "__lookupGetter__", "__lookupSetter__" ]

/-- The read `obj[key]` on an object literal with the given own properties:
own properties first, then the prototype chain. -/
def getProperty (own : List (String × Descriptor)) (key : String) : JSValue :=
  match own.lookup key with
  | some d => .descriptor d
  | none => if key ∈ objectPrototypeKeys then .builtin key else .undefined

/-- `a || b` on these values: only `undefined` is falsy among them. -/
def JSValue.or (a b : JSValue) : JSValue :=
  match a with
  | .undefined => b
  | v => v

/-- The read `details.title`; `none` is `undefined`. Reading a property of
`undefined` raises. -/
def JSValue.title : JSValue → JS (Option String)
  | .undefined => .error (.typeError "details")
  | .descriptor d => .ok (some d.title)
  | .builtin _ => .ok none

/-- The read `details.subtitle`. -/
def JSValue.subtitle : JSValue → JS (Option String)
  | .undefined => .error (.typeError "details")
  | .descriptor d => .ok (some d.subtitle)
  | .builtin _ => .ok none

/-- The read `details.showTag`. -/
def JSValue.showTag : JSValue → JS (Option Bool)
  | .undefined => .error (.typeError "details")
  | .descriptor d => .ok (some d.showTag)
  | .builtin _ => .ok none

/-- `!v` on a value that is a boolean or `undefined`. -/
def jsNot : Option Bool → Bool
  | some b => !b
  | none => true

/-- The function `updatePageHeader` (main.js, lines 81-117). -/
def updatePageHeader (p : Page) : JS Page := do
  let path := p.pathname
  let currentPage := orString (pageIdentifier path) "index.html"
  let titleEl := p.titleEl
  let subtitleEl := p.subtitleEl
  let tagEl := p.tagEl
  if titleEl.isNone || subtitleEl.isNone || tagEl.isNone then
    pure p
  else
    let title := "Page Not Found"
    let subtitle := "Please check the URL and try again."
    let showTag := false
    let details := (getProperty pageDetails currentPage).or (.descriptor ⟨title, subtitle, showTag⟩)
    let titleEl ← deref "titleEl" titleEl
    let subtitleEl ← deref "subtitleEl" subtitleEl
    let tagEl ← deref "tagEl" tagEl
    let titleEl := titleEl.setTextContent (← details.title)
    let subtitleEl := subtitleEl.setTextContent (← details.subtitle)
    let tagEl := (tagEl.toggleForce "hidden" (jsNot (← details.showTag))).1
    pure { p with titleEl := some titleEl, subtitleEl := some subtitleEl, tagEl := some tagEl }

/-! ## Profile dropdown -/

/-- Click listener on the toggle button (main.js, lines 133-138). The flag returned with the page
records the call to `event.stopPropagation()`. -/
def onToggleButtonClick (p : Page) : JS (Page × Bool) := do
  let dropdownMenu ← deref "dropdownMenu" p.dropdownMenu
  let toggleButton ← deref "toggleButton" p.toggleButton
  let (dropdownMenu, isHidden) := dropdownMenu.toggle "hidden"
  let toggleButton := toggleButton.setAttribute "aria-expanded" (boolToString (!isHidden))
  pure ({ p with dropdownMenu := some dropdownMenu, toggleButton := some toggleButton }, true)

/-- Click listener on the document (main.js, lines 141-146). `wrapper.contains(event.target)` holds
when the wrapper is the target or one of its ancestors. -/
def onDocumentClick (event : Event) (p : Page) : JS Page := do
  let _wrapper ← deref "wrapper" p.wrapper
  let dropdownMenu ← deref "dropdownMenu" p.dropdownMenu
  let toggleButton ← deref "toggleButton" p.toggleButton
  if !(decide (Node.wrapper ∈ event.path)) && !(dropdownMenu.contains "hidden") then
    let dropdownMenu := dropdownMenu.add "hidden"
    let toggleButton := toggleButton.setAttribute "aria-expanded" "false"
    pure { p with dropdownMenu := some dropdownMenu, toggleButton := some toggleButton }
  else
    pure p

/-- Keydown listener on the document (main.js, lines 149-154). -/
def onDocumentKeydown (event : Event) (p : Page) : JS Page := do
  let dropdownMenu ← deref "dropdownMenu" p.dropdownMenu
  let toggleButton ← deref "toggleButton" p.toggleButton
  if event.key == "Escape" && !(dropdownMenu.contains "hidden") then
    let dropdownMenu := dropdownMenu.add "hidden"
    let toggleButton := toggleButton.setAttribute "aria-expanded" "false"
    pure { p with dropdownMenu := some dropdownMenu, toggleButton := some toggleButton }
  else
    pure p

/-- The function `initializeUserProfileDropdown` (main.js, lines 123-155). -/
def initializeUserProfileDropdown (p : Page) : JS Page :=
  if p.wrapper.isNone || p.toggleButton.isNone || p.dropdownMenu.isNone then
    pure p
  else
    let p := p.addEventListener (.element .toggleButton) "click" .onToggleButtonClick
    let p := p.addEventListener .document "click" .onDocumentClick
    let p := p.addEventListener .document "keydown" .onDocumentKeydown
    pure p

/-! ## Initialization and event dispatch -/

/-- The function `initializeApp` (main.js, lines 160-169). -/
def initializeApp (p : Page) : JS Page := do
  let p ← initializeSidebarToggle p
  let p ← setActiveNavLink p
  let p ← initializeSidebarTooltips p
  let p ← updatePageHeader p
  let p ← initializeUserProfileDropdown p
  pure p

/-- Run a listener body on an event; the flag tells whether it stopped the
propagation. -/
def Handler.run : Handler → Event → Page → JS (Page × Bool)
  | .toggleSidebar, _, p => do
    let p1 ← DashboardUI.toggleSidebar p
    pure (p1, false)
  | .onToggleButtonClick, _, p => DashboardUI.onToggleButtonClick p
  | .onDocumentClick, ev, p => do
    let p1 ← DashboardUI.onDocumentClick ev p
    pure (p1, false)
  | .onDocumentKeydown, ev, p => do
    let p1 ← DashboardUI.onDocumentKeydown ev p
    pure (p1, false)

/-- Invoke, in registration order, the listeners registered on `node` for
the event's type. Returns the page, whether propagation was stopped, and
the listener bodies that ran. -/
def invokeListeners : List Listener → Target → Event → Page → JS (Page × Bool × List Handler)
  | [], _, _, p => .ok (p, false, [])
  | l :: rest, node, ev, p =>
    if l.target = node ∧ l.evType = ev.evType then
      match l.handler.run ev p with
      | .error e => .error e
      | .ok (p1, s1) =>
        match invokeListeners rest node ev p1 with
        | .error e => .error e
        | .ok (p2, s2, ran) => .ok (p2, s1 || s2, l.handler :: ran)
    else
      invokeListeners rest node ev p

/-- Bubble an event along a chain of targets; a stopped propagation still
finishes the listeners of the current target and goes no further. -/
def propagate : List Target → Event → Page → JS (Page × List Handler)
  | [], _, p => .ok (p, [])
  | node :: rest, ev, p =>
    match invokeListeners p.listeners node ev p with
    | .error e => .error e
    | .ok (p1, stopped, ran) =>
      if stopped then .ok (p1, ran)
      else
        match propagate rest ev p1 with
        | .error e => .error e
        | .ok (p2, ran2) => .ok (p2, ran ++ ran2)

/-- Dispatch of a bubbling event: from the target up through its ancestors
and finally to the document. -/
def dispatchEvent (ev : Event) (p : Page) : JS (Page × List Handler) :=
  propagate (ev.path.map Target.element ++ [Target.document]) ev p

/-- Dispatch a sequence of events one after the other. -/
def dispatchAll : List Event → Page → JS Page
  | [], p => .ok p
  | ev :: rest, p =>
    match dispatchEvent ev p with
    | .error e => .error e
    | .ok (p1, _) => dispatchAll rest p1

/-! ## Helpers used to state the loop and wiring lemmas -/

/-- What the loop body of `setActiveNavLink` does to the anchor it visits,
given the value of `currentPage`. -/
def activeStep (currentPage : String) (a : Anchor) : Anchor :=
  if (a.elem.getAttribute "href" == some "dashboard.html" &&
        (currentPage == "index.html" || currentPage == ""))
      || a.elem.getAttribute "href" == some currentPage
  then { a with elem := (a.elem.add "active").setAttribute "aria-current" "page" }
  else a

/-- What the loop body of `initializeSidebarTooltips` does to the anchor it
visits (used to state the loop lemmas). -/
def tooltipStep (a : Anchor) : Anchor :=
  match a.span with
  | some text => { a with elem := a.elem.setAttribute "data-tooltip" (trim text) }
  | none => a

/-- The registrations made by `initializeSidebarToggle` on a page. -/
def sidebarListeners (p : Page) : List Listener :=
  if p.sidebar.isNone || p.mainContent.isNone then []
  else
    (if p.desktopToggle.isSome then
      [⟨Target.element Node.desktopToggle, "click", Handler.toggleSidebar⟩] else []) ++
    (if p.mobileToggle.isSome then
      [⟨Target.element Node.mobileToggle, "click", Handler.toggleSidebar⟩] else [])

/-- The three registrations made by `initializeUserProfileDropdown`. -/
def profileListeners : List Listener :=
  [ ⟨Target.element Node.toggleButton, "click", Handler.onToggleButtonClick⟩,
    ⟨Target.document, "click", Handler.onDocumentClick⟩,
    ⟨Target.document, "keydown", Handler.onDocumentKeydown⟩ ]

/-- The registrations made by `initializeUserProfileDropdown` on a page. -/
def dropdownListeners (p : Page) : List Listener :=
  if p.wrapper.isNone || p.toggleButton.isNone || p.dropdownMenu.isNone then []
  else profileListeners

/-- The three header regions as `updatePageHeader` leaves them, from the
path and the regions before. -/
def headerRegions (path : String) (titleEl subtitleEl tagEl : Option Element) :
    Option Element × Option Element × Option Element :=
  match titleEl, subtitleEl, tagEl with
  | some t, some s, some g =>
    match (getProperty pageDetails (orString (pageIdentifier path) "index.html")).or
        (.descriptor ⟨"Page Not Found", "Please check the URL and try again.", false⟩) with
    | .descriptor d =>
      (some (t.setTextContent (some d.title)), some (s.setTextContent (some d.subtitle)),
        some (g.toggleForce "hidden" (!d.showTag)).1)
    | _ =>
      (some (t.setTextContent none), some (s.setTextContent none),
        some (g.toggleForce "hidden" true).1)
  | t, s, g => (t, s, g)

/-- Two page states that differ at most in what `toggleSidebar` writes: the
sidebar, the main content and the desktop toggle. -/
def SameProfile (p q : Page) : Prop :=
  q.wrapper = p.wrapper ∧ q.toggleButton = p.toggleButton ∧ q.dropdownMenu = p.dropdownMenu ∧
  q.listeners = p.listeners ∧ q.sidebar.isSome = p.sidebar.isSome ∧
  q.mainContent.isSome = p.mainContent.isSome

/-- The wiring `initializeApp` leaves on a page that had no listeners and
has the three profile regions: sidebar registrations on elements other than
the profile button (present only with the sidebar and the main content),
followed by the three profile registrations. -/
def Wired (p : Page) : Prop :=
  ∃ sb, p.listeners = sb ++ profileListeners ∧
    (∀ l ∈ sb, l.handler = Handler.toggleSidebar ∧
      l.target ≠ Target.element Node.toggleButton ∧ l.target ≠ Target.document ∧
      p.sidebar.isSome = true ∧ p.mainContent.isSome = true) ∧
    p.wrapper.isSome = true ∧ p.toggleButton.isSome = true ∧ p.dropdownMenu.isSome = true

/-- The dropdown invariant: the button's aria-expanded is "true" when the
menu does not carry `hidden` and "false" when it does. -/
def Synced (p : Page) : Prop :=
  ∃ m b, p.dropdownMenu = some m ∧ p.toggleButton = some b ∧
    b.getAttribute "aria-expanded" = some (boolToString (!m.contains "hidden"))

/-- The page after the toggle button's click listener ran, for a menu `m`
and a button `b`. -/
def afterToggle (p : Page) (m b : Element) : Page :=
  { p with
    dropdownMenu := some (m.toggle "hidden").1,
    toggleButton := some (b.setAttribute "aria-expanded"
      (boolToString (!(m.toggle "hidden").1.contains "hidden"))) }

/-- The page after a document listener closed the menu `m`. -/
def afterClose (p : Page) (m b : Element) : Page :=
  { p with
    dropdownMenu := some (m.add "hidden"),
    toggleButton := some (b.setAttribute "aria-expanded" "false") }

/-- A page with every region present, the sidebar expanded, the dropdown
menu hidden, two navigation entries and no inline margin yet. -/
def samplePage : Page :=
  { pathname := "/app/",
    sidebar := some ⟨["sidebar"], [], "", ""⟩,
    mainContent := some ⟨["main-content"], [], "", ""⟩,
    desktopToggle := some ⟨[], [("aria-expanded", "true")], "", ""⟩,
    mobileToggle := some ⟨[], [], "", ""⟩,
    anchors :=
      [ ⟨⟨[], [("href", "dashboard.html")], "Dashboard", ""⟩, true, true, some " Dashboard "⟩,
        ⟨⟨[], [("href", "balances.html")], "Balances", ""⟩, true, true, some "Balances"⟩ ],
    titleEl := some ⟨[], [], "", ""⟩,
    subtitleEl := some ⟨[], [], "", ""⟩,
    tagEl := some ⟨["tag"], [], "New", ""⟩,
    wrapper := some ⟨[], [], "", ""⟩,
    toggleButton := some ⟨[], [("aria-expanded", "false")], "", ""⟩,
    dropdownMenu := some ⟨["hidden"], [], "", ""⟩,
    listeners := [],
    console := [] }

/-- The sample page served at a given path. -/
def samplePageAt (path : String) : Page :=
  { samplePage with pathname := path }

/-- A page served at `/app/` whose navigation holds a link to
`dashboard.html` and a link with an empty href. -/
def emptyHrefPage : Page :=
  { samplePage with
    pathname := "/app/",
    anchors :=
      [ ⟨⟨[], [("href", "dashboard.html")], "Dashboard", ""⟩, true, true, some "Dashboard"⟩,
        ⟨⟨[], [("href", "")], "Here", ""⟩, true, true, some "Here"⟩ ] }

/-! ## Elements: token lists and attributes -/

theorem contains_toggle (e : Element) (t : String) :
    (e.toggle t).1.contains t = !e.contains t := by
  unfold Element.toggle Element.contains
  by_cases h : t ∈ e.classList
  · simp [h, Element.remove]
  · simp [h]

theorem toggle_snd (e : Element) (t : String) :
    (e.toggle t).2 = (e.toggle t).1.contains t := by
  unfold Element.toggle Element.contains
  by_cases h : t ∈ e.classList
  · simp [h, Element.remove]
  · simp [h]

theorem contains_add (e : Element) (t : String) : (e.add t).contains t = true := by
  unfold Element.add Element.contains
  by_cases h : t ∈ e.classList
  · simp [h]
  · simp [h]

theorem contains_toggleForce (e : Element) (t : String) (force : Bool) :
    (e.toggleForce t force).1.contains t = force := by
  unfold Element.toggleForce Element.contains
  by_cases h : t ∈ e.classList <;> cases force <;> simp [h, Element.remove]

theorem getAttr_setAttr_self (l : List (String × String)) (n v : String) :
    getAttr (setAttr l n v) n = some v := by
  induction l with
  | nil => simp [setAttr, getAttr]
  | cons a rest ih =>
    obtain ⟨m, w⟩ := a
    by_cases h : m = n
    · simp [setAttr, getAttr, h]
    · simp [setAttr, getAttr, h, ih]

theorem getAttr_setAttr_of_ne (l : List (String × String)) (n v k : String) (hk : k ≠ n) :
    getAttr (setAttr l n v) k = getAttr l k := by
  induction l with
  | nil =>
    have : ¬ n = k := fun h => hk h.symm
    simp [setAttr, getAttr, this]
  | cons a rest ih =>
    obtain ⟨m, w⟩ := a
    by_cases h : m = n
    · have : ¬ n = k := fun h => hk h.symm
      simp [setAttr, getAttr, h, this]
    · by_cases h2 : m = k
      · subst h2
        simp [setAttr, getAttr, h]
      · simp [setAttr, getAttr, h, h2, ih]

theorem setAttr_setAttr_self (l : List (String × String)) (n v : String) :
    setAttr (setAttr l n v) n v = setAttr l n v := by
  induction l with
  | nil => simp [setAttr]
  | cons a rest ih =>
    obtain ⟨m, w⟩ := a
    by_cases h : m = n
    · simp [setAttr, h]
    · simp [setAttr, h, ih]

/-! ## Sidebar toggle -/

/-- What one run of `toggleSidebar` does when the sidebar and the main
content exist. -/
theorem toggleSidebar_eq (p : Page) (s m : Element)
    (hs : p.sidebar = some s) (hm : p.mainContent = some m) :
    toggleSidebar p = .ok
      { p with
        sidebar := some (s.toggle "collapsed").1,
        desktopToggle := p.desktopToggle.map fun d =>
          d.setAttribute "aria-expanded" (boolToString (s.contains "collapsed")),
        mainContent := some
          { m with marginLeft := if s.contains "collapsed" then "14rem" else "3.5rem" } } := by
  unfold toggleSidebar
  simp only [hs, hm, deref, bind, Except.bind, pure, Except.pure, contains_toggle]
  cases hd : p.desktopToggle <;> cases hc : s.contains "collapsed" <;> simp

/-- C8: a run of the `toggleSidebar` handler, whatever event triggered it and
whatever the state before, leaves the main content's left margin at "3.5rem"
when the sidebar is now collapsed and at "14rem" otherwise, sets the desktop
toggle's aria-expanded (when that control exists) to the negation of the
collapsed flag, and leaves the mobile toggle untouched. -/
theorem toggleSidebar_effects (ev : Event) (p : Page)
    (hs : p.sidebar.isSome = true) (hm : p.mainContent.isSome = true) :
    ∃ p1 s1 m1, Handler.run Handler.toggleSidebar ev p = .ok (p1, false) ∧
      p1.sidebar = some s1 ∧ p1.mainContent = some m1 ∧
      m1.marginLeft = (if s1.contains "collapsed" then "3.5rem" else "14rem") ∧
      (∀ d, p.desktopToggle = some d → ∃ d1, p1.desktopToggle = some d1 ∧
        d1.getAttribute "aria-expanded" = some (boolToString (!s1.contains "collapsed"))) ∧
      (p.desktopToggle = none → p1.desktopToggle = none) ∧
      p1.mobileToggle = p.mobileToggle := by
  obtain ⟨s, hs1⟩ := Option.isSome_iff_exists.mp hs
  obtain ⟨m, hm1⟩ := Option.isSome_iff_exists.mp hm
  refine ⟨{ p with
      sidebar := some (s.toggle "collapsed").1,
      desktopToggle := p.desktopToggle.map fun d =>
        d.setAttribute "aria-expanded" (boolToString (s.contains "collapsed")),
      mainContent := some
        { m with marginLeft := if s.contains "collapsed" then "14rem" else "3.5rem" } },
    (s.toggle "collapsed").1,
    { m with marginLeft := if s.contains "collapsed" then "14rem" else "3.5rem" },
    ?_, rfl, rfl, ?_, ?_, ?_, rfl⟩
  · simp [Handler.run, toggleSidebar_eq p s m hs1 hm1, bind, Except.bind, pure, Except.pure]
  · rw [contains_toggle]
    cases s.contains "collapsed" <;> simp
  · intro d hd
    refine ⟨d.setAttribute "aria-expanded" (boolToString (s.contains "collapsed")), ?_, ?_⟩
    · simp [hd]
    · simp [Element.getAttribute, Element.setAttribute, getAttr_setAttr_self, contains_toggle]
  · intro hd
    simp [hd]

/-- The mobile toggle triggers the handler on the sample page. -/
theorem toggleSidebar_effects_witness :
    ∃ p1 s1 m1,
      Handler.run Handler.toggleSidebar ⟨"click", "", [Node.mobileToggle]⟩ samplePage
        = .ok (p1, false) ∧
      p1.sidebar = some s1 ∧ p1.mainContent = some m1 ∧
      m1.marginLeft = (if s1.contains "collapsed" then "3.5rem" else "14rem") ∧
      (∀ d, samplePage.desktopToggle = some d → ∃ d1, p1.desktopToggle = some d1 ∧
        d1.getAttribute "aria-expanded" = some (boolToString (!s1.contains "collapsed"))) ∧
      (samplePage.desktopToggle = none → p1.desktopToggle = none) ∧
      p1.mobileToggle = samplePage.mobileToggle :=
  toggleSidebar_effects ⟨"click", "", [Node.mobileToggle]⟩ samplePage rfl rfl

/-- C3, as stated, fails: on the sample page the main content has no inline
left margin before the first toggle and "14rem" after the second. -/
theorem toggleSidebar_twice_counterexample :
    samplePage.sidebar.isSome = true ∧ samplePage.mainContent.isSome = true ∧
    samplePage.mainContent.map Element.marginLeft = some "" ∧
    ((toggleSidebar samplePage >>= toggleSidebar).toOption.bind Page.mainContent).map
      Element.marginLeft = some "14rem" := by
  decide

/-- C3, amended: two runs of `toggleSidebar` restore the sidebar's collapsed
flag and leave the main content's left margin at the value that goes with
that flag ("3.5rem" when collapsed, "14rem" otherwise); the margin is back at
its earlier value exactly when it already had the value going with the flag. -/
theorem toggleSidebar_twice (p : Page) (s m : Element)
    (hs : p.sidebar = some s) (hm : p.mainContent = some m) :
    ∃ p1 p2 s2 m2, toggleSidebar p = .ok p1 ∧ toggleSidebar p1 = .ok p2 ∧
      p2.sidebar = some s2 ∧ p2.mainContent = some m2 ∧
      s2.contains "collapsed" = s.contains "collapsed" ∧
      m2.marginLeft = (if s.contains "collapsed" then "3.5rem" else "14rem") ∧
      (m2.marginLeft = m.marginLeft ↔
        m.marginLeft = (if s.contains "collapsed" then "3.5rem" else "14rem")) := by
  have h1 := toggleSidebar_eq p s m hs hm
  refine ⟨_, _, _, _, h1, toggleSidebar_eq _ _ _ rfl rfl, rfl, rfl, ?_, ?_, ?_⟩
  · simp [contains_toggle]
  · simp only [contains_toggle]
    cases s.contains "collapsed" <;> simp
  · simp only [contains_toggle]
    cases s.contains "collapsed" <;> simp [eq_comm]

/-- Two toggles on the sample page. -/
theorem toggleSidebar_twice_witness :
    ∃ p1 p2 s2 m2, toggleSidebar samplePage = .ok p1 ∧ toggleSidebar p1 = .ok p2 ∧
      p2.sidebar = some s2 ∧ p2.mainContent = some m2 ∧
      s2.contains "collapsed" = false ∧ m2.marginLeft = "14rem" ∧
      (m2.marginLeft = "" ↔ "" = "14rem") :=
  toggleSidebar_twice samplePage ⟨["sidebar"], [], "", ""⟩ ⟨["main-content"], [], "", ""⟩ rfl rfl

/-! ## The page identifier -/

theorem lastIndexOfAux_spec (c : Char) (xs : List Char) (i : Nat) (acc : Int) :
    (c ∉ xs ∧ lastIndexOfAux c xs i acc = acc) ∨
    (∃ pre post, xs = pre ++ c :: post ∧ c ∉ post ∧
      lastIndexOfAux c xs i acc = ((i + pre.length : Nat) : Int)) := by
  induction xs generalizing i acc with
  | nil => left; simp [lastIndexOfAux]
  | cons x rest ih =>
    rcases ih (i + 1) (if x = c then (i : Int) else acc) with ⟨hnot, hres⟩ | ⟨pre, post, hsplit, hpost, hres⟩
    · by_cases hx : x = c
      · right
        refine ⟨[], rest, by simp [hx], hnot, ?_⟩
        simp only [hx, if_true] at hres
        simp [lastIndexOfAux, hres, hx]
      · left
        refine ⟨?_, ?_⟩
        · simp [hnot, Ne.symm hx]
        · simp only [hx, if_false] at hres
          simp [lastIndexOfAux, hres, hx]
    · right
      refine ⟨x :: pre, post, by simp [hsplit], hpost, ?_⟩
      simp only [lastIndexOfAux, hres, List.length_cons]
      congr 1
      omega

/-- The identifier is the part of the path after its last `/`, or the whole
path when there is none. -/
theorem pageIdentifier_spec (path : String) :
    ('/' ∉ path.data ∧ pageIdentifier path = path) ∨
    (∃ pre, path.data = pre ++ '/' :: (pageIdentifier path).data ∧
      '/' ∉ (pageIdentifier path).data) := by
  unfold pageIdentifier substring lastIndexOf
  rcases lastIndexOfAux_spec '/' path.data 0 (-1) with ⟨hnot, hres⟩ | ⟨pre, post, hsplit, hpost, hres⟩
  · left
    refine ⟨hnot, ?_⟩
    simp [hres]
  · right
    refine ⟨pre, ?_, ?_⟩
    · have : ((((0 + pre.length : Nat) : Int) + 1).toNat) = pre.length + 1 := by omega
      rw [hres, this, hsplit]
      simp
    · have : ((((0 + pre.length : Nat) : Int) + 1).toNat) = pre.length + 1 := by omega
      rw [hres, this, hsplit]
      simpa using hpost

theorem pageIdentifier_no_slash (path : String) : '/' ∉ (pageIdentifier path).data := by
  rcases pageIdentifier_spec path with ⟨hnot, heq⟩ | ⟨pre, _, h⟩
  · rw [heq]; exact hnot
  · exact h

theorem pageIdentifier_eq_empty_iff (path : String) :
    pageIdentifier path = "" ↔ (path = "" ∨ path.data.getLast? = some '/') := by
  rcases pageIdentifier_spec path with ⟨hnot, heq⟩ | ⟨pre, hsplit, hno⟩
  · rw [heq]
    constructor
    · intro h; exact Or.inl h
    · rintro (h | h)
      · exact h
      · exact absurd (List.mem_of_getLast?_eq_some h) hnot
  · constructor
    · intro h
      right
      rw [hsplit, h]
      simp
    · rintro (h | h)
      · rw [h] at hsplit
        simp at hsplit
      · rw [hsplit] at h
        by_cases hp : (pageIdentifier path).data = []
        · exact String.ext hp
        · exfalso
          rw [List.append_cons, List.getLast?_append_of_ne_nil _ hp] at h
          exact hno (List.mem_of_getLast?_eq_some h)

/-! ## Page header -/

/-- The header update when the lookup, after the fallback, yields a
descriptor. -/
theorem updatePageHeader_of_descriptor (p : Page) (t s g : Element) (d : Descriptor)
    (ht : p.titleEl = some t) (hs : p.subtitleEl = some s) (hg : p.tagEl = some g)
    (hd : (getProperty pageDetails (orString (pageIdentifier p.pathname) "index.html")).or
      (.descriptor ⟨"Page Not Found", "Please check the URL and try again.", false⟩)
        = .descriptor d) :
    updatePageHeader p = .ok
      { p with
        titleEl := some (t.setTextContent (some d.title)),
        subtitleEl := some (s.setTextContent (some d.subtitle)),
        tagEl := some (g.toggleForce "hidden" (!d.showTag)).1 } := by
  unfold updatePageHeader
  simp only [ht, hs, hg, hd, deref, bind, Except.bind, pure, Except.pure, JSValue.title,
    JSValue.subtitle, JSValue.showTag, jsNot, Option.isNone_some, Bool.or_self,
    Bool.false_eq_true, if_false]

theorem getProperty_pageDetails (k : String) (d : Descriptor) (hk : (k, d) ∈ pageDetails) :
    getProperty pageDetails k = .descriptor d ∧ k ≠ "" := by
  simp only [pageDetails, List.mem_cons, Prod.mk.injEq, List.mem_singleton, List.not_mem_nil,
    or_false] at hk
  rcases hk with h | h | h | h | h | h | h | h | h | h <;>
    (obtain ⟨rfl, rfl⟩ := h; exact ⟨by rfl, by decide⟩)

theorem lookup_of_not_mem (l : List (String × Descriptor)) (k : String)
    (hk : k ∉ l.map Prod.fst) : l.lookup k = none := by
  induction l with
  | nil => rfl
  | cons a rest ih =>
    obtain ⟨n, d⟩ := a
    simp only [List.map_cons, List.mem_cons, not_or] at hk
    have hb : (k == n) = false := by simpa using hk.1
    simp only [List.lookup, hb]
    exact ih hk.2

theorem getProperty_unknown (k : String) (hk : k ∉ pageDetails.map Prod.fst)
    (hproto : k ∉ objectPrototypeKeys) :
    getProperty pageDetails k = .undefined := by
  simp [getProperty, lookup_of_not_mem pageDetails k hk, hproto]

/-- The fallback descriptor is used for every looked-up name that is
neither a key of the table nor a name inherited from `Object.prototype`. -/
theorem updatePageHeader_fallback (p : Page) (t s g : Element)
    (ht : p.titleEl = some t) (hs : p.subtitleEl = some s) (hg : p.tagEl = some g)
    (hk : orString (pageIdentifier p.pathname) "index.html" ∉ pageDetails.map Prod.fst)
    (hproto : orString (pageIdentifier p.pathname) "index.html" ∉ objectPrototypeKeys) :
    ∃ p1 t1 s1 g1, updatePageHeader p = .ok p1 ∧
      p1.titleEl = some t1 ∧ p1.subtitleEl = some s1 ∧ p1.tagEl = some g1 ∧
      t1.textContent = "Page Not Found" ∧
      s1.textContent = "Please check the URL and try again." ∧
      g1.contains "hidden" = true := by
  have h := updatePageHeader_of_descriptor p t s g
    ⟨"Page Not Found", "Please check the URL and try again.", false⟩ ht hs hg
    (by rw [getProperty_unknown _ hk hproto]; rfl)
  exact ⟨_, _, _, _, h, rfl, rfl, rfl, rfl, rfl, contains_toggleForce _ _ _⟩

/-- C1: for each of the ten keys of `pageDetails` (each of which has one
descriptor), on a page with the title, subtitle and tag regions,
`updatePageHeader` sets the title text to the entry's title, the subtitle
text to the entry's subtitle, and leaves the tag carrying `hidden` exactly
when the entry's `showTag` is false, whatever the tag's classes were. -/
theorem updatePageHeader_known (p : Page) (k : String) (d : Descriptor) (t s g : Element)
    (hk : (k, d) ∈ pageDetails) (hid : pageIdentifier p.pathname = k)
    (ht : p.titleEl = some t) (hs : p.subtitleEl = some s) (hg : p.tagEl = some g) :
    pageDetails.map Prod.fst =
      ["index.html", "dashboard.html", "balances.html", "convert.html", "withdraw.html",
       "cards.html", "transaction-history.html", "security-center.html", "settings.html",
       "profile.html"] ∧
    (∀ d1, (k, d1) ∈ pageDetails → d1 = d) ∧
    ∃ p1 t1 s1 g1, updatePageHeader p = .ok p1 ∧
      p1.titleEl = some t1 ∧ p1.subtitleEl = some s1 ∧ p1.tagEl = some g1 ∧
      t1.textContent = d.title ∧ s1.textContent = d.subtitle ∧
      (g1.contains "hidden" = true ↔ d.showTag = false) := by
  obtain ⟨hget, hne⟩ := getProperty_pageDetails k d hk
  refine ⟨rfl, ?_, ?_⟩
  · intro d1 h1
    have h2 := (getProperty_pageDetails k d1 h1).1
    rw [hget] at h2
    exact (JSValue.descriptor.inj h2).symm
  · have h := updatePageHeader_of_descriptor p t s g d ht hs hg
      (by simp [hid, orString, hne, hget, JSValue.or])
    refine ⟨_, _, _, _, h, rfl, rfl, rfl, rfl, rfl, ?_⟩
    rw [contains_toggleForce]
    cases d.showTag <;> simp

/-- The settings page. -/
theorem updatePageHeader_known_witness :
    ∃ p1 t1 s1 g1, updatePageHeader (samplePageAt "/app/settings.html") = .ok p1 ∧
      p1.titleEl = some t1 ∧ p1.subtitleEl = some s1 ∧ p1.tagEl = some g1 ∧
      t1.textContent = "Settings" ∧
      s1.textContent = "Configure your application preferences" ∧
      (g1.contains "hidden" = true ↔ false = false) :=
  (updatePageHeader_known (samplePageAt "/app/settings.html") "settings.html"
    ⟨"Settings", "Configure your application preferences", false⟩
    ⟨[], [], "", ""⟩ ⟨[], [], "", ""⟩ ⟨["tag"], [], "New", ""⟩
    (by decide) (by decide) rfl rfl rfl).2.2

/-- C2 does not hold on the code: `constructor` is not a key of the table,
yet for the path `/constructor` the lookup finds the member inherited from
`Object.prototype`, the fallback is not used, and the title and subtitle are
set to the empty string (the tag is hidden). -/
theorem updatePageHeader_inherited_name :
    pageIdentifier "/constructor" = "constructor" ∧
    "constructor" ∉ pageDetails.map Prod.fst ∧
    getProperty pageDetails "constructor" = JSValue.builtin "constructor" ∧
    ((updatePageHeader (samplePageAt "/constructor")).toOption.bind Page.titleEl).map
      Element.textContent = some "" ∧
    ((updatePageHeader (samplePageAt "/constructor")).toOption.bind Page.subtitleEl).map
      Element.textContent = some "" ∧
    ((updatePageHeader (samplePageAt "/constructor")).toOption.bind Page.tagEl).map
      Element.classList = some ["tag", "hidden"] := by
  decide

/-! ## Loops over the navigation anchors -/

theorem set_of_getElem? {α : Type} (l : List α) (i : Nat) (a : α) (h : l[i]? = some a) :
    l.set i a = l := by
  apply List.ext_getElem?
  intro j
  rw [List.getElem?_set]
  by_cases hij : i = j
  · subst hij
    have hlt : i < l.length := (List.getElem?_eq_some.mp h).1
    simp [hlt, h]
  · simp [hij]

theorem mem_querySelectorAll (p : Page) (selector : String) (i : Nat) :
    i ∈ p.querySelectorAll selector ↔
      ∃ a, p.anchors[i]? = some a ∧ a.isMatch selector = true := by
  unfold Page.querySelectorAll
  rw [List.mem_filter, List.mem_range]
  cases h : p.anchors[i]? with
  | none => simp
  | some a =>
    have hlt : i < p.anchors.length := (List.getElem?_eq_some.mp h).1
    simp [hlt]

theorem nodup_querySelectorAll (p : Page) (selector : String) :
    (p.querySelectorAll selector).Nodup :=
  List.Nodup.filter _ (List.nodup_range _)

/-- A loop whose body rewrites the visited anchor by `g` rewrites exactly the
visited anchors, each once, and nothing else on the page. -/
theorem forEach_anchors (g : Anchor → Anchor) (body : Nat → Page → JS Page)
    (hbody : ∀ i q a, q.anchors[i]? = some a → body i q = .ok (q.setAnchor i (g a)))
    (visited : List Nat) (hnd : visited.Nodup) (p : Page)
    (hin : ∀ i ∈ visited, i < p.anchors.length) :
    ∃ l, forEach visited body p = .ok { p with anchors := l } ∧
      ∀ j, l[j]? = (p.anchors[j]?).map (fun a => if j ∈ visited then g a else a) := by
  induction visited generalizing p with
  | nil => exact ⟨p.anchors, rfl, by simp⟩
  | cons i rest ih =>
    have hi : i < p.anchors.length := hin i (List.mem_cons_self _ _)
    have hget : p.anchors[i]? = some p.anchors[i] := List.getElem?_eq_getElem hi
    obtain ⟨hirest, hrest⟩ := List.nodup_cons.mp hnd
    obtain ⟨l, hl, hpt⟩ := ih hrest (p.setAnchor i (g p.anchors[i]))
      (by
        intro k hk
        simpa [Page.setAnchor] using hin k (List.mem_cons_of_mem _ hk))
    refine ⟨l, ?_, ?_⟩
    · simp only [forEach, hbody i p _ hget, hl]
      rfl
    · intro j
      rw [hpt j]
      simp only [Page.setAnchor, List.getElem?_set]
      by_cases hij : i = j
      · subst hij
        simp [hi, hirest]
      · have hji : ¬ j = i := fun h => hij h.symm
        simp [hij, hji]

theorem setAnchor_self (q : Page) (i : Nat) (a : Anchor) (h : q.anchors[i]? = some a) :
    q.setAnchor i a = q := by
  unfold Page.setAnchor
  rw [set_of_getElem? _ _ _ h]

/-- The loop of `setActiveNavLink`, anchor by anchor. -/
theorem setActiveNavLink_eq (p : Page) :
    ∃ l, setActiveNavLink p = .ok { p with anchors := l } ∧
      ∀ j, l[j]? = (p.anchors[j]?).map (fun a =>
        if j ∈ p.querySelectorAll ".sidebar-menu-item a" then
          activeStep (pageIdentifier p.pathname) a
        else a) := by
  unfold setActiveNavLink
  apply forEach_anchors
  · intro i q a h
    simp only [h, deref, bind, Except.bind, pure, Except.pure, activeStep]
    split
    · rfl
    · rw [setAnchor_self q i a h]
  · exact nodup_querySelectorAll _ _
  · intro i hi
    obtain ⟨a, ha, _⟩ := (mem_querySelectorAll _ _ _).mp hi
    exact (List.getElem?_eq_some.mp ha).1

theorem length_eq_of_getElem?_map {α : Type} (l l0 : List α) (f : Nat → α → α)
    (h : ∀ j, l[j]? = (l0[j]?).map (f j)) : l.length = l0.length := by
  apply Nat.le_antisymm
  · have h1 := h l0.length
    rw [List.getElem?_eq_none (Nat.le_refl _)] at h1
    exact List.getElem?_eq_none_iff.mp h1
  · have h1 := h l.length
    rw [List.getElem?_eq_none (Nat.le_refl _)] at h1
    have h2 : l0[l.length]? = none := by
      cases h3 : l0[l.length]? with
      | none => rfl
      | some b => rw [h3] at h1; simp at h1
    exact List.getElem?_eq_none_iff.mp h2

theorem mem_classList_add (e : Element) (t c : String) :
    c ∈ (e.add t).classList ↔ c ∈ e.classList ∨ c = t := by
  unfold Element.add
  by_cases h : t ∈ e.classList
  · simp only [h, if_true]
    constructor
    · intro hc; exact Or.inl hc
    · rintro (hc | hc)
      · exact hc
      · rw [hc]; exact h
  · simp [h]

/-- C4: `setActiveNavLink` marks (adds the class `active` and sets
aria-current to "page" on) every navigation entry whose href equals the page
identifier, or whose href is "dashboard.html" when the identifier is
"index.html" or empty, however many entries match; every other entry, and
the rest of the page, is left exactly as it was. -/
theorem setActiveNavLink_marks (p : Page) :
    ∃ p1, setActiveNavLink p = .ok p1 ∧ p1 = { p with anchors := p1.anchors } ∧
      p1.anchors.length = p.anchors.length ∧
      ∀ (i : Nat) (a : Anchor), p.anchors[i]? = some a →
        ((a.isMatch ".sidebar-menu-item a" = true ∧
            (a.elem.getAttribute "href" = some (pageIdentifier p.pathname) ∨
              (a.elem.getAttribute "href" = some "dashboard.html" ∧
                (pageIdentifier p.pathname = "index.html" ∨ pageIdentifier p.pathname = ""))) →
          ∃ a1 : Anchor, p1.anchors[i]? = some a1 ∧
            a1 = { a with elem := (a.elem.add "active").setAttribute "aria-current" "page" } ∧
            a1.elem.contains "active" = true ∧
            a1.elem.getAttribute "aria-current" = some "page" ∧
            (∀ c, c ≠ "active" → (c ∈ a1.elem.classList ↔ c ∈ a.elem.classList)) ∧
            (∀ n, n ≠ "aria-current" → a1.elem.getAttribute n = a.elem.getAttribute n)) ∧
        (¬ (a.isMatch ".sidebar-menu-item a" = true ∧
            (a.elem.getAttribute "href" = some (pageIdentifier p.pathname) ∨
              (a.elem.getAttribute "href" = some "dashboard.html" ∧
                (pageIdentifier p.pathname = "index.html" ∨ pageIdentifier p.pathname = "")))) →
          p1.anchors[i]? = some a)) := by
  obtain ⟨l, hl, hpt⟩ := setActiveNavLink_eq p
  refine ⟨_, hl, rfl, length_eq_of_getElem?_map _ _ _ hpt, ?_⟩
  intro i a ha
  have hmem : i ∈ p.querySelectorAll ".sidebar-menu-item a" ↔
      a.isMatch ".sidebar-menu-item a" = true := by
    rw [mem_querySelectorAll]
    constructor
    · rintro ⟨b, hb, hm⟩
      rw [ha] at hb
      cases hb
      exact hm
    · intro hm
      exact ⟨a, ha, hm⟩
  have hi := hpt i
  rw [ha] at hi
  simp only [Option.map_some', activeStep] at hi
  constructor
  · rintro ⟨hm, hcond⟩
    refine ⟨{ a with elem := (a.elem.add "active").setAttribute "aria-current" "page" },
      ?_, rfl, ?_, ?_, ?_, ?_⟩
    · show l[i]? = _
      rw [hi, if_pos (hmem.mpr hm)]
      rcases hcond with h | ⟨h1, h2 | h2⟩
      · simp [h]
      · simp [h1, h2]
      · simp [h1, h2]
    · simp [Element.contains, Element.setAttribute, mem_classList_add]
    · simp [Element.getAttribute, Element.setAttribute, getAttr_setAttr_self]
    · intro c hc
      simp [Element.setAttribute, mem_classList_add, hc]
    · intro n hn
      simp [Element.getAttribute, Element.setAttribute, getAttr_setAttr_of_ne _ _ _ _ hn,
        Element.add]
      split <;> rfl
  · intro hneg
    show l[i]? = _
    rw [hi]
    by_cases hm : a.isMatch ".sidebar-menu-item a" = true
    · rw [if_pos (hmem.mpr hm)]
      have hcond : ¬ (a.elem.getAttribute "href" = some (pageIdentifier p.pathname) ∨
          (a.elem.getAttribute "href" = some "dashboard.html" ∧
            (pageIdentifier p.pathname = "index.html" ∨ pageIdentifier p.pathname = ""))) :=
        fun h => hneg ⟨hm, h⟩
      simp only [not_or, not_and] at hcond
      obtain ⟨h1, h2⟩ := hcond
      have h3 : ¬ ((a.elem.getAttribute "href" == some "dashboard.html" &&
                (pageIdentifier p.pathname == "index.html" || pageIdentifier p.pathname == ""))
              || a.elem.getAttribute "href" == some (pageIdentifier p.pathname)) = true := by
        simp only [Bool.or_eq_true, Bool.and_eq_true, beq_iff_eq, not_or, not_and]
        exact ⟨h2, h1⟩
      rw [if_neg h3]
    · rw [if_neg (fun h => hm (hmem.mp h))]

/-! ## Trimming -/

theorem head?_dropWhile_false {α : Type} (f : α → Bool) (l : List α) (c : α)
    (h : (l.dropWhile f).head? = some c) : f c = false := by
  have h1 := List.head?_dropWhile_not f l
  rw [h] at h1
  exact h1

/-- The trimmed string is what is left of the string once a leading and a
trailing run of white space are taken off, and it neither starts nor ends
with white space. -/
theorem trim_spec (s : String) :
    ∃ pre post, s.data = pre ++ (trim s).data ++ post ∧
      (∀ c ∈ pre, isJSWhiteSpace c = true) ∧ (∀ c ∈ post, isJSWhiteSpace c = true) ∧
      (∀ c, (trim s).data.head? = some c → isJSWhiteSpace c = false) ∧
      (∀ c, (trim s).data.getLast? = some c → isJSWhiteSpace c = false) := by
  have hmid : s.data.dropWhile isJSWhiteSpace =
      ((s.data.dropWhile isJSWhiteSpace).reverse.dropWhile isJSWhiteSpace).reverse ++
      ((s.data.dropWhile isJSWhiteSpace).reverse.takeWhile isJSWhiteSpace).reverse := by
    rw [← List.reverse_append, List.takeWhile_append_dropWhile, List.reverse_reverse]
  refine ⟨s.data.takeWhile isJSWhiteSpace,
    ((s.data.dropWhile isJSWhiteSpace).reverse.takeWhile isJSWhiteSpace).reverse, ?_, ?_, ?_, ?_, ?_⟩
  · show s.data = _ ++ ((s.data.dropWhile isJSWhiteSpace).reverse.dropWhile isJSWhiteSpace).reverse
      ++ _
    rw [List.append_assoc, ← hmid, List.takeWhile_append_dropWhile]
  · intro c hc
    exact List.mem_takeWhile_imp hc
  · intro c hc
    exact List.mem_takeWhile_imp (List.mem_reverse.mp hc)
  · intro c hc
    have hc1 : ((s.data.dropWhile isJSWhiteSpace).reverse.dropWhile isJSWhiteSpace).reverse.head?
        = some c := hc
    apply head?_dropWhile_false isJSWhiteSpace s.data c
    rw [hmid, List.head?_append, hc1]
    rfl
  · intro c hc
    have hc1 : ((s.data.dropWhile isJSWhiteSpace).reverse.dropWhile isJSWhiteSpace).reverse.getLast?
        = some c := hc
    rw [List.getLast?_reverse] at hc1
    exact head?_dropWhile_false isJSWhiteSpace _ c hc1

/-! ## Tooltips -/

/-- The loop of `initializeSidebarTooltips`, anchor by anchor. -/
theorem initializeSidebarTooltips_eq (p : Page) :
    ∃ l, initializeSidebarTooltips p = .ok { p with anchors := l } ∧
      ∀ j, l[j]? = (p.anchors[j]?).map (fun a =>
        if j ∈ p.querySelectorAll ".sidebar-menu a" then tooltipStep a else a) := by
  unfold initializeSidebarTooltips
  apply forEach_anchors
  · intro i q a h
    simp only [h, deref, bind, Except.bind, pure, Except.pure, tooltipStep]
    split
    · rfl
    · rw [setAnchor_self q i a h]
  · exact nodup_querySelectorAll _ _
  · intro i hi
    obtain ⟨a, ha, _⟩ := (mem_querySelectorAll _ _ _).mp hi
    exact (List.getElem?_eq_some.mp ha).1

theorem tooltipStep_isMatch (a : Anchor) (selector : String) :
    (tooltipStep a).isMatch selector = a.isMatch selector := by
  unfold tooltipStep
  split <;> rfl

theorem tooltipStep_idem (a : Anchor) : tooltipStep (tooltipStep a) = tooltipStep a := by
  unfold tooltipStep
  cases h : a.span with
  | none => simp [h]
  | some text => simp [h, Element.setAttribute, setAttr_setAttr_self]

/-- A second run of the tooltip loop changes nothing. -/
theorem initializeSidebarTooltips_again (p : Page) (l : List Anchor)
    (hpt : ∀ j, l[j]? = (p.anchors[j]?).map (fun a =>
        if j ∈ p.querySelectorAll ".sidebar-menu a" then tooltipStep a else a)) :
    initializeSidebarTooltips { p with anchors := l } = .ok { p with anchors := l } := by
  obtain ⟨l2, hl2, hpt2⟩ := initializeSidebarTooltips_eq { p with anchors := l }
  rw [hl2]
  have : l2 = l := by
    apply List.ext_getElem?
    intro j
    rw [hpt2 j]
    show Option.map _ l[j]? = l[j]?
    cases hj : p.anchors[j]? with
    | none =>
      have : l[j]? = none := by rw [hpt j, hj]; rfl
      rw [this]; rfl
    | some a =>
      have hmem : j ∈ p.querySelectorAll ".sidebar-menu a" ↔
          a.isMatch ".sidebar-menu a" = true := by
        rw [mem_querySelectorAll]
        constructor
        · rintro ⟨b, hb, hm⟩
          rw [hj] at hb
          cases hb
          exact hm
        · intro hm
          exact ⟨a, hj, hm⟩
      by_cases hm : a.isMatch ".sidebar-menu a" = true
      · have hl : l[j]? = some (tooltipStep a) := by
          rw [hpt j, hj]
          simp [hmem.mpr hm]
        have hmem2 : j ∈ Page.querySelectorAll { p with anchors := l } ".sidebar-menu a" := by
          rw [mem_querySelectorAll]
          exact ⟨tooltipStep a, hl, by rw [tooltipStep_isMatch]; exact hm⟩
        rw [hl]
        simp [hmem2, tooltipStep_idem]
      · have hn : ¬ j ∈ p.querySelectorAll ".sidebar-menu a" := fun h => hm (hmem.mp h)
        have hl : l[j]? = some a := by
          rw [hpt j, hj]
          simp [hn]
        have hmem2 : ¬ j ∈ Page.querySelectorAll { p with anchors := l } ".sidebar-menu a" := by
          rw [mem_querySelectorAll]
          rintro ⟨b, hb, hbm⟩
          rw [hl] at hb
          cases hb
          exact hm hbm
        rw [hl]
        simp [hmem2]
  rw [this]

/-- C9: after `initializeSidebarTooltips` every navigation entry with a label
sub-element has its data-tooltip attribute equal to the label text with the
leading and trailing white space removed (the label "Balances" gives
"Balances") and is otherwise as before, every entry without a label is
unchanged, as is the rest of the page, and a second run yields the same page
as the first. -/
theorem initializeSidebarTooltips_spec (p : Page) :
    ∃ p1, initializeSidebarTooltips p = .ok p1 ∧ p1 = { p with anchors := p1.anchors } ∧
      p1.anchors.length = p.anchors.length ∧
      (∀ (i : Nat) (a : Anchor), p.anchors[i]? = some a →
        (∀ text, a.isMatch ".sidebar-menu a" = true → a.span = some text →
          ∃ a1 : Anchor, p1.anchors[i]? = some a1 ∧
            a1 = { a with elem := a.elem.setAttribute "data-tooltip" (trim text) } ∧
            a1.elem.getAttribute "data-tooltip" = some (trim text) ∧
            (∀ n, n ≠ "data-tooltip" → a1.elem.getAttribute n = a.elem.getAttribute n)) ∧
        ((a.isMatch ".sidebar-menu a" = false ∨ a.span = none) → p1.anchors[i]? = some a)) ∧
      initializeSidebarTooltips p1 = .ok p1 ∧
      (∀ text : String, ∃ pre post, text.data = pre ++ (trim text).data ++ post ∧
        (∀ c ∈ pre, isJSWhiteSpace c = true) ∧ (∀ c ∈ post, isJSWhiteSpace c = true) ∧
        (∀ c, (trim text).data.head? = some c → isJSWhiteSpace c = false) ∧
        (∀ c, (trim text).data.getLast? = some c → isJSWhiteSpace c = false)) ∧
      trim "Balances" = "Balances" := by
  obtain ⟨l, hl, hpt⟩ := initializeSidebarTooltips_eq p
  refine ⟨_, hl, rfl, length_eq_of_getElem?_map _ _ _ hpt, ?_,
    initializeSidebarTooltips_again p l hpt, trim_spec, by decide⟩
  intro i a ha
  have hmem : i ∈ p.querySelectorAll ".sidebar-menu a" ↔
      a.isMatch ".sidebar-menu a" = true := by
    rw [mem_querySelectorAll]
    constructor
    · rintro ⟨b, hb, hm⟩
      rw [ha] at hb
      cases hb
      exact hm
    · intro hm
      exact ⟨a, ha, hm⟩
  have hi := hpt i
  rw [ha] at hi
  simp only [Option.map_some'] at hi
  constructor
  · intro text hm hspan
    refine ⟨{ a with elem := a.elem.setAttribute "data-tooltip" (trim text) }, ?_, rfl, ?_, ?_⟩
    · show l[i]? = _
      rw [hi, if_pos (hmem.mpr hm)]
      simp [tooltipStep, hspan]
    · simp [Element.getAttribute, Element.setAttribute, getAttr_setAttr_self]
    · intro n hn
      simp [Element.getAttribute, Element.setAttribute, getAttr_setAttr_of_ne _ _ _ _ hn]
  · intro h
    show l[i]? = _
    rw [hi]
    rcases h with h | h
    · have hn : ¬ i ∈ p.querySelectorAll ".sidebar-menu a" := by
        rw [hmem, h]
        simp
      rw [if_neg hn]
    · simp [tooltipStep, h]

/-! ## Initialization -/

theorem eq_map_of_pointwise (p : Page) (selector : String) (step : Anchor → Anchor)
    (l : List Anchor)
    (hpt : ∀ j, l[j]? = (p.anchors[j]?).map (fun a =>
      if j ∈ p.querySelectorAll selector then step a else a)) :
    l = p.anchors.map (fun a => if a.isMatch selector = true then step a else a) := by
  apply List.ext_getElem?
  intro j
  rw [hpt j, List.getElem?_map]
  cases hj : p.anchors[j]? with
  | none => rfl
  | some a =>
    have hmem : j ∈ p.querySelectorAll selector ↔ a.isMatch selector = true := by
      rw [mem_querySelectorAll]
      constructor
      · rintro ⟨b, hb, hm⟩
        rw [hj] at hb
        cases hb
        exact hm
      · intro hm
        exact ⟨a, hj, hm⟩
    simp only [Option.map_some', hmem]

/-- `setActiveNavLink` as a map over the anchors. -/
theorem setActiveNavLink_map (p : Page) :
    setActiveNavLink p = .ok { p with anchors := p.anchors.map (fun a =>
      if a.isMatch ".sidebar-menu-item a" = true then activeStep (pageIdentifier p.pathname) a
      else a) } := by
  obtain ⟨l, hl, hpt⟩ := setActiveNavLink_eq p
  rw [hl, eq_map_of_pointwise p _ _ l hpt]

/-- `initializeSidebarTooltips` as a map over the anchors. -/
theorem initializeSidebarTooltips_map (p : Page) :
    initializeSidebarTooltips p = .ok { p with anchors := p.anchors.map (fun a =>
      if a.isMatch ".sidebar-menu a" = true then tooltipStep a else a) } := by
  obtain ⟨l, hl, hpt⟩ := initializeSidebarTooltips_eq p
  rw [hl, eq_map_of_pointwise p _ _ l hpt]

theorem initializeSidebarToggle_eq (p : Page) :
    initializeSidebarToggle p = .ok
      { p with
        listeners := p.listeners ++ sidebarListeners p,
        console := if p.sidebar.isNone || p.mainContent.isNone then p.console ++
          ["Sidebar or Main Content element not found. Cannot initialize toggle."]
          else p.console } := by
  unfold initializeSidebarToggle sidebarListeners
  by_cases hg : (p.sidebar.isNone || p.mainContent.isNone) = true
  · simp [hg, pure, Except.pure]
  · simp only [hg, if_false, pure, Except.pure, Page.addEventListener]
    by_cases hd : p.desktopToggle.isSome = true <;>
      by_cases hm : p.mobileToggle.isSome = true <;> simp [hd, hm]

theorem initializeUserProfileDropdown_eq (p : Page) :
    initializeUserProfileDropdown p = .ok
      { p with listeners := p.listeners ++ dropdownListeners p } := by
  unfold initializeUserProfileDropdown dropdownListeners
  by_cases hg : (p.wrapper.isNone || p.toggleButton.isNone || p.dropdownMenu.isNone) = true
  · simp [hg, pure, Except.pure]
  · simp [hg, pure, Except.pure, Page.addEventListener, profileListeners]

/-- The header update succeeds on every page, touches the three header
regions only, and depends on the path and those regions only. -/
theorem updatePageHeader_eq (p : Page) :
    updatePageHeader p = .ok
      { p with
        titleEl := (headerRegions p.pathname p.titleEl p.subtitleEl p.tagEl).1,
        subtitleEl := (headerRegions p.pathname p.titleEl p.subtitleEl p.tagEl).2.1,
        tagEl := (headerRegions p.pathname p.titleEl p.subtitleEl p.tagEl).2.2 } := by
  obtain ⟨pathname, sidebar, mainContent, desktopToggle, mobileToggle, anchors, titleEl,
    subtitleEl, tagEl, wrapper, toggleButton, dropdownMenu, listeners, console⟩ := p
  unfold updatePageHeader headerRegions
  cases titleEl with
  | none => simp [pure, Except.pure]
  | some t =>
    cases subtitleEl with
    | none => simp [pure, Except.pure]
    | some s =>
      cases tagEl with
      | none => simp [pure, Except.pure]
      | some g =>
        cases hv : getProperty pageDetails (orString (pageIdentifier pathname) "index.html") <;>
          simp [hv, JSValue.or, JSValue.title, JSValue.subtitle, JSValue.showTag, deref, bind,
            Except.bind, pure, Except.pure, jsNot]

theorem headerRegions_of_missing (path : String) (t s g : Option Element)
    (h : t = none ∨ s = none ∨ g = none) : headerRegions path t s g = (t, s, g) := by
  unfold headerRegions
  rcases h with h | h | h <;> subst h
  · rfl
  · cases t <;> rfl
  · cases t <;> cases s <;> rfl

/-- The page `initializeApp` produces, region by region. -/
theorem initializeApp_eq (p : Page) :
    initializeApp p = .ok
      { p with
        listeners := p.listeners ++ sidebarListeners p ++ dropdownListeners p,
        console := if p.sidebar.isNone || p.mainContent.isNone then p.console ++
          ["Sidebar or Main Content element not found. Cannot initialize toggle."]
          else p.console,
        anchors := (p.anchors.map (fun a =>
          if a.isMatch ".sidebar-menu-item a" = true then
            activeStep (pageIdentifier p.pathname) a else a)).map (fun a =>
          if a.isMatch ".sidebar-menu a" = true then tooltipStep a else a),
        titleEl := (headerRegions p.pathname p.titleEl p.subtitleEl p.tagEl).1,
        subtitleEl := (headerRegions p.pathname p.titleEl p.subtitleEl p.tagEl).2.1,
        tagEl := (headerRegions p.pathname p.titleEl p.subtitleEl p.tagEl).2.2 } := by
  unfold initializeApp
  simp only [bind, Except.bind, initializeSidebarToggle_eq, setActiveNavLink_map,
    initializeSidebarTooltips_map, updatePageHeader_eq, initializeUserProfileDropdown_eq,
    pure, Except.pure, dropdownListeners]

theorem activeStep_frame (c : String) (a : Anchor) :
    (activeStep c a).span = a.span ∧
    (activeStep c a).inSidebarMenuItem = a.inSidebarMenuItem ∧
    (activeStep c a).inSidebarMenu = a.inSidebarMenu ∧
    (activeStep c a).elem.textContent = a.elem.textContent ∧
    (activeStep c a).elem.marginLeft = a.elem.marginLeft ∧
    (∀ n, n ≠ "aria-current" →
      (activeStep c a).elem.getAttribute n = a.elem.getAttribute n) := by
  unfold activeStep
  split
  · refine ⟨rfl, rfl, rfl, ?_, ?_, ?_⟩
    · simp only [Element.setAttribute, Element.add]
      split <;> rfl
    · simp only [Element.setAttribute, Element.add]
      split <;> rfl
    · intro n hn
      simp only [Element.getAttribute, Element.setAttribute, getAttr_setAttr_of_ne _ _ _ _ hn,
        Element.add]
      split <;> rfl
  · exact ⟨rfl, rfl, rfl, rfl, rfl, fun _ _ => rfl⟩

theorem tooltipStep_frame (a : Anchor) :
    (tooltipStep a).span = a.span ∧
    (tooltipStep a).inSidebarMenuItem = a.inSidebarMenuItem ∧
    (tooltipStep a).inSidebarMenu = a.inSidebarMenu ∧
    (tooltipStep a).elem.textContent = a.elem.textContent ∧
    (tooltipStep a).elem.marginLeft = a.elem.marginLeft ∧
    (tooltipStep a).elem.classList = a.elem.classList ∧
    (∀ n, n ≠ "data-tooltip" →
      (tooltipStep a).elem.getAttribute n = a.elem.getAttribute n) := by
  unfold tooltipStep
  split
  · refine ⟨rfl, rfl, rfl, rfl, rfl, rfl, ?_⟩
    intro n hn
    simp only [Element.getAttribute, Element.setAttribute, getAttr_setAttr_of_ne _ _ _ _ hn]
  · exact ⟨rfl, rfl, rfl, rfl, rfl, rfl, fun _ _ => rfl⟩

/-- The tooltip the tooltip step leaves depends on the label only, not on
what the active-link step did before. -/
theorem tooltipStep_after_activeStep (c : String) (a : Anchor) :
    (tooltipStep (activeStep c a)).elem.getAttribute "data-tooltip" =
      (tooltipStep a).elem.getAttribute "data-tooltip" := by
  have hspan := (activeStep_frame c a).1
  unfold tooltipStep
  rw [hspan]
  cases a.span with
  | none =>
    exact (activeStep_frame c a).2.2.2.2.2 "data-tooltip" (by decide)
  | some text =>
    simp only [Element.getAttribute, Element.setAttribute, getAttr_setAttr_self]

theorem isMatch_congr (a b : Anchor) (selector : String)
    (h1 : b.inSidebarMenuItem = a.inSidebarMenuItem) (h2 : b.inSidebarMenu = a.inSidebarMenu) :
    b.isMatch selector = a.isMatch selector := by
  unfold Anchor.isMatch
  rw [h1, h2]

/-- C7: on every page, whatever regions it has, `initializeApp` runs the five
behaviours to completion without raising. A behaviour whose required regions
are missing registers no listener and changes no region (the sidebar toggle
writes its console line); each behaviour leaves in the final page exactly
what it leaves when run alone on the page: its listeners, its console
output, the header regions, the classes and aria-current of the navigation
entries, their tooltips; everything else is untouched. -/
theorem initializeApp_total (p : Page) :
    ∃ q1 q2 q3 q4 q5 p5 d1 d5,
      initializeSidebarToggle p = .ok q1 ∧ setActiveNavLink p = .ok q2 ∧
      initializeSidebarTooltips p = .ok q3 ∧ updatePageHeader p = .ok q4 ∧
      initializeUserProfileDropdown p = .ok q5 ∧ initializeApp p = .ok p5 ∧
      ((p.sidebar = none ∨ p.mainContent = none) →
        d1 = [] ∧ q1 = { p with console := p.console ++
          ["Sidebar or Main Content element not found. Cannot initialize toggle."] }) ∧
      ((p.titleEl = none ∨ p.subtitleEl = none ∨ p.tagEl = none) → q4 = p) ∧
      ((p.wrapper = none ∨ p.toggleButton = none ∨ p.dropdownMenu = none) →
        d5 = [] ∧ q5 = p) ∧
      q1.listeners = p.listeners ++ d1 ∧ q5.listeners = p.listeners ++ d5 ∧
      p5.listeners = p.listeners ++ d1 ++ d5 ∧
      p5.console = q1.console ∧
      p5.titleEl = q4.titleEl ∧ p5.subtitleEl = q4.subtitleEl ∧ p5.tagEl = q4.tagEl ∧
      p5.pathname = p.pathname ∧ p5.sidebar = p.sidebar ∧ p5.mainContent = p.mainContent ∧
      p5.desktopToggle = p.desktopToggle ∧ p5.mobileToggle = p.mobileToggle ∧
      p5.wrapper = p.wrapper ∧ p5.toggleButton = p.toggleButton ∧
      p5.dropdownMenu = p.dropdownMenu ∧
      p5.anchors.length = p.anchors.length ∧
      (∀ (i : Nat) (a : Anchor), p.anchors[i]? = some a →
        ∃ a2 a3 a5 : Anchor, q2.anchors[i]? = some a2 ∧ q3.anchors[i]? = some a3 ∧
          p5.anchors[i]? = some a5 ∧
          a5.elem.classList = a2.elem.classList ∧
          a5.elem.getAttribute "data-tooltip" = a3.elem.getAttribute "data-tooltip" ∧
          (∀ n, n ≠ "data-tooltip" → a5.elem.getAttribute n = a2.elem.getAttribute n) ∧
          a5.elem.textContent = a.elem.textContent ∧ a5.elem.marginLeft = a.elem.marginLeft ∧
          a5.span = a.span ∧ a5.inSidebarMenuItem = a.inSidebarMenuItem ∧
          a5.inSidebarMenu = a.inSidebarMenu) := by
  refine ⟨_, _, _, _, _, _, sidebarListeners p, dropdownListeners p,
    initializeSidebarToggle_eq p, setActiveNavLink_map p, initializeSidebarTooltips_map p,
    updatePageHeader_eq p, initializeUserProfileDropdown_eq p, initializeApp_eq p,
    ?_, ?_, ?_, rfl, rfl, rfl, rfl, rfl, rfl, rfl, rfl, rfl, rfl, rfl, rfl, rfl, rfl, rfl,
    ?_, ?_⟩
  · intro h
    have hg : (p.sidebar.isNone || p.mainContent.isNone) = true := by
      rcases h with h | h <;> simp [h]
    constructor
    · simp [sidebarListeners, hg]
    · simp [sidebarListeners, hg]
  · intro h
    rw [headerRegions_of_missing _ _ _ _ h]
  · intro h
    have hg : (p.wrapper.isNone || p.toggleButton.isNone || p.dropdownMenu.isNone) = true := by
      rcases h with h | h | h <;> simp [h]
    constructor
    · simp [dropdownListeners, hg]
    · simp [dropdownListeners, hg]
  · simp
  · intro i a ha
    have hA := activeStep_frame (pageIdentifier p.pathname) a
    have hT : (activeStep (pageIdentifier p.pathname) a).isMatch ".sidebar-menu a"
        = a.isMatch ".sidebar-menu a" := isMatch_congr _ _ _ hA.2.1 hA.2.2.1
    by_cases hN : a.isMatch ".sidebar-menu-item a" = true
    · have hF := tooltipStep_frame (activeStep (pageIdentifier p.pathname) a)
      by_cases hM : a.isMatch ".sidebar-menu a" = true
      · refine ⟨activeStep (pageIdentifier p.pathname) a, tooltipStep a,
          tooltipStep (activeStep (pageIdentifier p.pathname) a), ?_, ?_, ?_, ?_⟩
        · simp [List.getElem?_map, ha, hN]
        · simp [List.getElem?_map, ha, hM]
        · simp [List.getElem?_map, ha, hN, hM, hT]
        · exact ⟨hF.2.2.2.2.2.1, tooltipStep_after_activeStep _ _, hF.2.2.2.2.2.2,
            hF.2.2.2.1.trans hA.2.2.2.1, hF.2.2.2.2.1.trans hA.2.2.2.2.1, hF.1.trans hA.1,
            hF.2.1.trans hA.2.1, hF.2.2.1.trans hA.2.2.1⟩
      · refine ⟨activeStep (pageIdentifier p.pathname) a, a,
          activeStep (pageIdentifier p.pathname) a, ?_, ?_, ?_, ?_⟩
        · simp [List.getElem?_map, ha, hN]
        · simp [List.getElem?_map, ha, hM]
        · simp [List.getElem?_map, ha, hN, hM, hT]
        · exact ⟨rfl, hA.2.2.2.2.2 "data-tooltip" (by decide), fun _ _ => rfl,
            hA.2.2.2.1, hA.2.2.2.2.1, hA.1, hA.2.1, hA.2.2.1⟩
    · have hF := tooltipStep_frame a
      by_cases hM : a.isMatch ".sidebar-menu a" = true
      · refine ⟨a, tooltipStep a, tooltipStep a, ?_, ?_, ?_, ?_⟩
        · simp [List.getElem?_map, ha, hN]
        · simp [List.getElem?_map, ha, hM]
        · simp [List.getElem?_map, ha, hN, hM]
        · exact ⟨hF.2.2.2.2.2.1, rfl, hF.2.2.2.2.2.2, hF.2.2.2.1, hF.2.2.2.2.1, hF.1,
            hF.2.1, hF.2.2.1⟩
      · refine ⟨a, a, a, ?_, ?_, ?_, ?_⟩
        · simp [List.getElem?_map, ha, hN]
        · simp [List.getElem?_map, ha, hM]
        · simp [List.getElem?_map, ha, hN, hM]
        · exact ⟨rfl, rfl, fun _ _ => rfl, rfl, rfl, rfl, rfl, rfl⟩

/-! ## Profile dropdown: the listener bodies -/

theorem onToggleButtonClick_eq (p : Page) (m b : Element)
    (hm : p.dropdownMenu = some m) (hb : p.toggleButton = some b) :
    onToggleButtonClick p = .ok
      ({ p with
          dropdownMenu := some (m.toggle "hidden").1,
          toggleButton := some (b.setAttribute "aria-expanded"
            (boolToString (!(m.toggle "hidden").1.contains "hidden"))) }, true) := by
  unfold onToggleButtonClick
  simp only [hm, hb, deref, bind, Except.bind, pure, Except.pure, toggle_snd]

theorem onDocumentClick_eq (ev : Event) (p : Page) (w m b : Element)
    (hw : p.wrapper = some w) (hm : p.dropdownMenu = some m) (hb : p.toggleButton = some b) :
    onDocumentClick ev p = .ok
      (if Node.wrapper ∉ ev.path ∧ m.contains "hidden" = false then
        { p with
          dropdownMenu := some (m.add "hidden"),
          toggleButton := some (b.setAttribute "aria-expanded" "false") }
      else p) := by
  unfold onDocumentClick
  simp only [hw, hm, hb, deref, bind, Except.bind, pure, Except.pure]
  by_cases h1 : Node.wrapper ∈ ev.path <;> cases h2 : m.contains "hidden" <;> simp [h1]

theorem onDocumentKeydown_eq (ev : Event) (p : Page) (m b : Element)
    (hm : p.dropdownMenu = some m) (hb : p.toggleButton = some b) :
    onDocumentKeydown ev p = .ok
      (if ev.key = "Escape" ∧ m.contains "hidden" = false then
        { p with
          dropdownMenu := some (m.add "hidden"),
          toggleButton := some (b.setAttribute "aria-expanded" "false") }
      else p) := by
  unfold onDocumentKeydown
  simp only [hm, hb, deref, bind, Except.bind, pure, Except.pure]
  by_cases h1 : ev.key = "Escape" <;> cases h2 : m.contains "hidden" <;> simp [h1]

/-! ## Event dispatch -/

theorem invokeListeners_append (l1 l2 : List Listener) (tg : Target) (ev : Event) (p : Page) :
    invokeListeners (l1 ++ l2) tg ev p =
      match invokeListeners l1 tg ev p with
      | .error e => .error e
      | .ok (p1, s1, ran1) =>
        match invokeListeners l2 tg ev p1 with
        | .error e => .error e
        | .ok (p2, s2, ran2) => .ok (p2, s1 || s2, ran1 ++ ran2) := by
  induction l1 generalizing p with
  | nil =>
    simp only [List.nil_append, invokeListeners]
    cases invokeListeners l2 tg ev p with
    | error e => rfl
    | ok r => obtain ⟨p2, s2, ran2⟩ := r; simp
  | cons l rest ih =>
    rw [List.cons_append]
    simp only [invokeListeners]
    by_cases hl : l.target = tg ∧ l.evType = ev.evType
    · simp only [hl, and_self, if_true]
      cases l.handler.run ev p with
      | error e => rfl
      | ok r =>
        obtain ⟨p1, s1⟩ := r
        simp only [ih]
        cases invokeListeners rest tg ev p1 with
        | error e => rfl
        | ok r1 =>
          obtain ⟨p2, s2, ran2⟩ := r1
          simp only
          cases invokeListeners l2 tg ev p2 with
          | error e => rfl
          | ok r2 =>
            obtain ⟨p3, s3, ran3⟩ := r2
            simp [Bool.or_assoc]
    · simp only [hl, if_false]
      exact ih p

theorem sameProfile_refl (p : Page) : SameProfile p p :=
  ⟨rfl, rfl, rfl, rfl, rfl, rfl⟩

theorem sameProfile_trans {p q r : Page} (h1 : SameProfile p q) (h2 : SameProfile q r) :
    SameProfile p r := by
  obtain ⟨a1, a2, a3, a4, a5, a6⟩ := h1
  obtain ⟨b1, b2, b3, b4, b5, b6⟩ := h2
  exact ⟨b1.trans a1, b2.trans a2, b3.trans a3, b4.trans a4, b5.trans a5, b6.trans a6⟩

theorem wired_of_sameProfile {p q : Page} (hw : Wired p) (h : SameProfile p q) : Wired q := by
  obtain ⟨sb, hl, hsb, h1, h2, h3⟩ := hw
  obtain ⟨a1, a2, a3, a4, a5, a6⟩ := h
  refine ⟨sb, by rw [a4, hl], ?_, by rw [a1, h1], by rw [a2, h2], by rw [a3, h3]⟩
  intro l hmem
  obtain ⟨c1, c2, c3, c4, c5⟩ := hsb l hmem
  exact ⟨c1, c2, c3, by rw [a5, c4], by rw [a6, c5]⟩

theorem toggleSidebar_sameProfile (p : Page)
    (hs : p.sidebar.isSome = true) (hm : p.mainContent.isSome = true) :
    ∃ p1, toggleSidebar p = .ok p1 ∧ SameProfile p p1 ∧ p1.mobileToggle = p.mobileToggle := by
  obtain ⟨s, hs1⟩ := Option.isSome_iff_exists.mp hs
  obtain ⟨m, hm1⟩ := Option.isSome_iff_exists.mp hm
  refine ⟨_, toggleSidebar_eq p s m hs1 hm1, ?_, rfl⟩
  exact ⟨rfl, rfl, rfl, rfl, by simp [hs1], by simp [hm1]⟩

/-- Listeners that all run `toggleSidebar` never stop the propagation and
leave the profile regions and the wiring alone. -/
theorem invokeListeners_sidebar (sb : List Listener) (tg : Target) (ev : Event) (p : Page)
    (hsb : ∀ l ∈ sb, l.handler = Handler.toggleSidebar)
    (hpres : sb ≠ [] → p.sidebar.isSome = true ∧ p.mainContent.isSome = true) :
    ∃ p1 ran, invokeListeners sb tg ev p = .ok (p1, false, ran) ∧ SameProfile p p1 ∧
      (∀ h ∈ ran, h = Handler.toggleSidebar) ∧
      ((∀ l ∈ sb, l.target ≠ tg) → p1 = p ∧ ran = []) := by
  induction sb generalizing p with
  | nil => exact ⟨p, [], rfl, sameProfile_refl p, by simp, fun _ => ⟨rfl, rfl⟩⟩
  | cons l rest ih =>
    obtain ⟨hs, hm⟩ := hpres (by simp)
    have hl : l.handler = Handler.toggleSidebar := hsb l (List.mem_cons_self _ _)
    have hrest : ∀ l ∈ rest, l.handler = Handler.toggleSidebar :=
      fun k hk => hsb k (List.mem_cons_of_mem _ hk)
    by_cases hmatch : l.target = tg ∧ l.evType = ev.evType
    · obtain ⟨p1, hp1, hsame, _⟩ := toggleSidebar_sameProfile p hs hm
      obtain ⟨p2, ran, hp2, hsame2, hran, _⟩ := ih p1 hrest
        (fun _ => ⟨by rw [hsame.2.2.2.2.1, hs], by rw [hsame.2.2.2.2.2, hm]⟩)
      refine ⟨p2, l.handler :: ran, ?_, sameProfile_trans hsame hsame2, ?_, ?_⟩
      · simp only [invokeListeners, hmatch, and_self, if_true, hl, Handler.run, hp1, bind,
          Except.bind, pure, Except.pure, hp2, Bool.or_self]
      · intro h hh
        rcases List.mem_cons.mp hh with h1 | h1
        · rw [h1, hl]
        · exact hran h h1
      · intro hno
        exact absurd hmatch.1 (hno l (List.mem_cons_self _ _))
    · obtain ⟨p2, ran, hp2, hsame2, hran, hnone⟩ := ih p hrest (fun _ => ⟨hs, hm⟩)
      refine ⟨p2, ran, ?_, hsame2, hran, ?_⟩
      · simp only [invokeListeners, hmatch, if_false, hp2]
      · intro hno
        exact hnone (fun k hk => hno k (List.mem_cons_of_mem _ hk))

/-- The three profile registrations, target by target and type by type. -/
theorem invokeListeners_profile (tg : Target) (ev : Event) (p : Page) (w m b : Element)
    (hw : p.wrapper = some w) (hm : p.dropdownMenu = some m) (hb : p.toggleButton = some b) :
    invokeListeners profileListeners tg ev p = .ok
      (if tg = Target.element Node.toggleButton ∧ ev.evType = "click" then
        (afterToggle p m b, true, [Handler.onToggleButtonClick])
      else if tg = Target.document ∧ ev.evType = "click" then
        ((if Node.wrapper ∉ ev.path ∧ m.contains "hidden" = false then afterClose p m b else p),
          false, [Handler.onDocumentClick])
      else if tg = Target.document ∧ ev.evType = "keydown" then
        ((if ev.key = "Escape" ∧ m.contains "hidden" = false then afterClose p m b else p),
          false, [Handler.onDocumentKeydown])
      else (p, false, [])) := by
  have hck : ¬ ("click" = "keydown") := by decide
  have hkc : ¬ ("keydown" = "click") := by decide
  have h1 := onToggleButtonClick_eq p m b hm hb
  have h2 := onDocumentClick_eq ev p w m b hw hm hb
  have h3 := onDocumentKeydown_eq ev p m b hm hb
  unfold profileListeners
  simp only [invokeListeners, Handler.run, bind, Except.bind, pure, Except.pure, h1, h2, h3,
    afterToggle, afterClose]
  by_cases ht : tg = Target.element Node.toggleButton
  · subst ht
    by_cases hc : ev.evType = "click"
    · simp [hc, hck]
    · have hc2 : ¬ ("click" = ev.evType) := fun h => hc h.symm
      simp [hc, hc2]
  · have ht2 : ¬ (Target.element Node.toggleButton = tg) := fun h => ht h.symm
    by_cases hd : tg = Target.document
    · subst hd
      by_cases hc : ev.evType = "click"
      · simp [hc, hck]
      · have hc2 : ¬ ("click" = ev.evType) := fun h => hc h.symm
        by_cases hk : ev.evType = "keydown"
        · simp [hk, hkc]
        · have hk2 : ¬ ("keydown" = ev.evType) := fun h => hk h.symm
          simp [hc, hc2, hk, hk2]
    · have hd2 : ¬ (Target.document = tg) := fun h => hd h.symm
      simp [ht, ht2, hd, hd2]

theorem wired_regions {p : Page} (hw : Wired p) :
    ∃ w m b, p.wrapper = some w ∧ p.dropdownMenu = some m ∧ p.toggleButton = some b := by
  obtain ⟨_, _, _, h1, h2, h3⟩ := hw
  obtain ⟨w, hw1⟩ := Option.isSome_iff_exists.mp h1
  obtain ⟨b, hb1⟩ := Option.isSome_iff_exists.mp h2
  obtain ⟨m, hm1⟩ := Option.isSome_iff_exists.mp h3
  exact ⟨w, m, b, hw1, hm1, hb1⟩

/-- All listeners of a wired page on one target: the sidebar registrations
run first, then the profile registrations. -/
theorem invokeListeners_wired (p : Page) (hw : Wired p) (tg : Target) (ev : Event)
    (w m b : Element)
    (hw1 : p.wrapper = some w) (hm : p.dropdownMenu = some m) (hb : p.toggleButton = some b) :
    ∃ p1 ran, SameProfile p p1 ∧ (∀ h ∈ ran, h = Handler.toggleSidebar) ∧
      ((tg = Target.element Node.toggleButton ∨ tg = Target.document) → p1 = p ∧ ran = []) ∧
      invokeListeners p.listeners tg ev p = .ok
        (if tg = Target.element Node.toggleButton ∧ ev.evType = "click" then
          (afterToggle p1 m b, true, ran ++ [Handler.onToggleButtonClick])
        else if tg = Target.document ∧ ev.evType = "click" then
          ((if Node.wrapper ∉ ev.path ∧ m.contains "hidden" = false then afterClose p1 m b
            else p1), false, ran ++ [Handler.onDocumentClick])
        else if tg = Target.document ∧ ev.evType = "keydown" then
          ((if ev.key = "Escape" ∧ m.contains "hidden" = false then afterClose p1 m b else p1),
            false, ran ++ [Handler.onDocumentKeydown])
        else (p1, false, ran)) := by
  obtain ⟨sb, hl, hsb, _, _, _⟩ := hw
  obtain ⟨p1, ran, hp1, hsame, hran, hnone⟩ := invokeListeners_sidebar sb tg ev p
    (fun l hmem => (hsb l hmem).1)
    (fun hne => by
      obtain ⟨l, hmem⟩ := List.exists_mem_of_ne_nil sb hne
      exact ⟨(hsb l hmem).2.2.2.1, (hsb l hmem).2.2.2.2⟩)
  refine ⟨p1, ran, hsame, hran, ?_, ?_⟩
  · intro htg
    apply hnone
    intro l hmem h
    rcases htg with htg | htg
    · exact (hsb l hmem).2.1 (h.trans htg)
    · exact (hsb l hmem).2.2.1 (h.trans htg)
  · rw [hl, invokeListeners_append, hp1]
    simp only
    rw [invokeListeners_profile tg ev p1 w m b (hsame.1.trans hw1) (hsame.2.2.1.trans hm)
      (hsame.2.1.trans hb)]
    simp only
    split_ifs <;> simp

/-- Bubbling through elements on which no profile listener fires: only
`toggleSidebar` can run, and the propagation goes on. -/
theorem propagate_passive (ev : Event) (path : List Node)
    (hpath : ev.evType = "click" → Node.toggleButton ∉ path) (p : Page) (hw : Wired p) :
    ∃ p1 ran, SameProfile p p1 ∧ (∀ h ∈ ran, h = Handler.toggleSidebar) ∧
      ∀ rest, propagate (path.map Target.element ++ rest) ev p =
        match propagate rest ev p1 with
        | .error e => .error e
        | .ok (p2, ran2) => .ok (p2, ran ++ ran2) := by
  induction path generalizing p with
  | nil =>
    refine ⟨p, [], sameProfile_refl p, by simp, ?_⟩
    intro rest
    simp only [List.map_nil, List.nil_append]
    cases propagate rest ev p with
    | error e => rfl
    | ok r => obtain ⟨p2, ran2⟩ := r; rfl
  | cons n path1 ih =>
    obtain ⟨w, m, b, hw1, hm, hb⟩ := wired_regions hw
    obtain ⟨p1, ran, hsame, hran, _, heq⟩ :=
      invokeListeners_wired p hw (Target.element n) ev w m b hw1 hm hb
    have hc1 : ¬ (Target.element n = Target.element Node.toggleButton ∧ ev.evType = "click") := by
      rintro ⟨h1, h2⟩
      have : n = Node.toggleButton := Target.element.inj h1
      exact hpath h2 (by rw [this]; exact List.mem_cons_self _ _)
    have hc2 : ¬ (Target.element n = Target.document) := by
      intro h
      cases h
    simp only [hc1, hc2, false_and, if_false] at heq
    obtain ⟨p2, ran2, hsame2, hran2, hrest⟩ := ih
      (fun hclick hmem => hpath hclick (List.mem_cons_of_mem _ hmem)) p1
      (wired_of_sameProfile hw hsame)
    refine ⟨p2, ran ++ ran2, sameProfile_trans hsame hsame2, ?_, ?_⟩
    · intro h hh
      rcases List.mem_append.mp hh with h1 | h1
      · exact hran h h1
      · exact hran2 h h1
    · intro rest
      rw [List.map_cons, List.cons_append]
      simp only [propagate, heq, Bool.false_eq_true, if_false]
      rw [hrest rest]
      cases propagate rest ev p2 with
      | error e => rfl
      | ok r => obtain ⟨p3, ran3⟩ := r; simp

theorem exists_first_occurrence {α : Type} [DecidableEq α] (a : α) (l : List α) (h : a ∈ l) :
    ∃ pre post, l = pre ++ a :: post ∧ a ∉ pre := by
  induction l with
  | nil => simp at h
  | cons x rest ih =>
    by_cases hx : x = a
    · exact ⟨[], rest, by simp [hx], by simp⟩
    · have hrest : a ∈ rest := by
        rcases List.mem_cons.mp h with h1 | h1
        · exact absurd h1.symm hx
        · exact h1
      obtain ⟨pre, post, hsplit, hpre⟩ := ih hrest
      refine ⟨x :: pre, post, by simp [hsplit], ?_⟩
      simp only [List.mem_cons, not_or]
      exact ⟨fun h1 => hx h1.symm, hpre⟩

/-- The outcome of dispatching any event on a wired page. -/
theorem dispatchEvent_wired (p : Page) (hw : Wired p) (ev : Event) (m b : Element)
    (hm : p.dropdownMenu = some m) (hb : p.toggleButton = some b) :
    ∃ p1 ran, SameProfile p p1 ∧ (∀ h ∈ ran, h = Handler.toggleSidebar) ∧
      dispatchEvent ev p = .ok
        (if ev.evType = "click" ∧ Node.toggleButton ∈ ev.path then
          (afterToggle p1 m b, ran ++ [Handler.onToggleButtonClick])
        else if ev.evType = "click" then
          ((if Node.wrapper ∉ ev.path ∧ m.contains "hidden" = false then afterClose p1 m b
            else p1), ran ++ [Handler.onDocumentClick])
        else if ev.evType = "keydown" then
          ((if ev.key = "Escape" ∧ m.contains "hidden" = false then afterClose p1 m b else p1),
            ran ++ [Handler.onDocumentKeydown])
        else (p1, ran)) := by
  obtain ⟨w, m1, b1, hw1, hm1, hb1⟩ := wired_regions hw
  rw [hm] at hm1
  rw [hb] at hb1
  cases hm1
  cases hb1
  unfold dispatchEvent
  by_cases hc : ev.evType = "click" ∧ Node.toggleButton ∈ ev.path
  · obtain ⟨pre, post, hsplit, hpre⟩ := exists_first_occurrence _ _ hc.2
    obtain ⟨p1, ran, hsame, hran, hrest⟩ := propagate_passive ev pre (fun _ => hpre) p hw
    obtain ⟨p2, ran2, _, _, hnone, heq⟩ := invokeListeners_wired p1 (wired_of_sameProfile hw hsame)
      (Target.element Node.toggleButton) ev w m b (hsame.1.trans hw1) (hsame.2.2.1.trans hm)
      (hsame.2.1.trans hb)
    obtain ⟨h1, h2⟩ := hnone (Or.inl rfl)
    subst h1
    subst h2
    refine ⟨p2, ran, hsame, hran, ?_⟩
    rw [hsplit, List.map_append, List.append_assoc, hrest, List.map_cons, List.cons_append]
    simp only [propagate, heq, hc.1, and_self, if_true, List.nil_append]
    simp
  · have hpath : ev.evType = "click" → Node.toggleButton ∉ ev.path :=
      fun h1 h2 => hc ⟨h1, h2⟩
    obtain ⟨p1, ran, hsame, hran, hrest⟩ := propagate_passive ev ev.path hpath p hw
    obtain ⟨p2, ran2, _, _, hnone, heq⟩ := invokeListeners_wired p1 (wired_of_sameProfile hw hsame)
      Target.document ev w m b (hsame.1.trans hw1) (hsame.2.2.1.trans hm)
      (hsame.2.1.trans hb)
    obtain ⟨h1, h2⟩ := hnone (Or.inr rfl)
    subst h1
    subst h2
    refine ⟨p2, ran, hsame, hran, ?_⟩
    rw [hrest]
    have hd : ¬ (Target.document = Target.element Node.toggleButton) := by
      intro h
      cases h
    simp only [propagate, heq, hd, false_and, if_false, true_and, List.nil_append]
    rw [if_neg hc]
    by_cases h1 : ev.evType = "click"
    · simp [h1]
    · by_cases h2 : ev.evType = "keydown"
      · simp [h2]
      · simp [h1, h2]

/-! ## Profile dropdown: wiring and invariant -/

theorem mem_sidebarListeners (p : Page) (l : Listener) (h : l ∈ sidebarListeners p) :
    l.handler = Handler.toggleSidebar ∧ l.target ≠ Target.element Node.toggleButton ∧
      l.target ≠ Target.document ∧ p.sidebar.isSome = true ∧ p.mainContent.isSome = true := by
  by_cases hg : (p.sidebar.isNone || p.mainContent.isNone) = true
  · simp [sidebarListeners, hg] at h
  · have hpres : p.sidebar.isSome = true ∧ p.mainContent.isSome = true := by
      cases hs : p.sidebar <;> cases hm : p.mainContent <;> simp [hs, hm] at hg ⊢
    simp only [sidebarListeners, hg, Bool.false_eq_true, if_false, List.mem_append] at h
    rcases h with h | h
    · by_cases hd : p.desktopToggle.isSome = true
      · simp only [hd, if_true, List.mem_singleton] at h
        subst h
        exact ⟨rfl, by decide, by decide, hpres⟩
      · simp [hd] at h
    · by_cases hd : p.mobileToggle.isSome = true
      · simp only [hd, if_true, List.mem_singleton] at h
        subst h
        exact ⟨rfl, by decide, by decide, hpres⟩
      · simp [hd] at h

/-- After `initializeApp` on a page without listeners that has the three
profile regions, the page is wired and the profile regions are as before. -/
theorem initializeApp_wired (p0 : Page) (hl : p0.listeners = [])
    (hw : p0.wrapper.isSome = true) (hb : p0.toggleButton.isSome = true)
    (hm : p0.dropdownMenu.isSome = true) :
    ∃ p1, initializeApp p0 = .ok p1 ∧ Wired p1 ∧ p1.dropdownMenu = p0.dropdownMenu ∧
      p1.toggleButton = p0.toggleButton ∧ p1.wrapper = p0.wrapper := by
  refine ⟨_, initializeApp_eq p0, ?_, rfl, rfl, rfl⟩
  have hg : ¬ (p0.wrapper.isNone || p0.toggleButton.isNone || p0.dropdownMenu.isNone) = true := by
    cases h1 : p0.wrapper <;> cases h2 : p0.toggleButton <;> cases h3 : p0.dropdownMenu <;>
      simp [h1, h2, h3] at hw hb hm ⊢
  refine ⟨sidebarListeners p0, ?_, ?_, hw, hb, hm⟩
  · simp [hl, dropdownListeners, hg]
  · intro l hmem
    exact mem_sidebarListeners p0 l hmem

theorem wired_afterToggle {p : Page} (hw : Wired p) (m b : Element) :
    Wired (afterToggle p m b) := by
  obtain ⟨sb, hl, hsb, h1, _, _⟩ := hw
  exact ⟨sb, hl, hsb, h1, rfl, rfl⟩

theorem wired_afterClose {p : Page} (hw : Wired p) (m b : Element) :
    Wired (afterClose p m b) := by
  obtain ⟨sb, hl, hsb, h1, _, _⟩ := hw
  exact ⟨sb, hl, hsb, h1, rfl, rfl⟩

theorem synced_afterToggle (p : Page) (m b : Element) : Synced (afterToggle p m b) :=
  ⟨_, _, rfl, rfl, by simp [Element.getAttribute, Element.setAttribute, getAttr_setAttr_self]⟩

theorem synced_afterClose (p : Page) (m b : Element) : Synced (afterClose p m b) :=
  ⟨_, _, rfl, rfl, by
    simp [Element.getAttribute, Element.setAttribute, getAttr_setAttr_self, contains_add,
      boolToString]⟩

theorem synced_of_sameProfile {p q : Page} (hs : Synced p) (h : SameProfile p q) : Synced q := by
  obtain ⟨m, b, hm, hb, ha⟩ := hs
  exact ⟨m, b, h.2.2.1.trans hm, h.2.1.trans hb, ha⟩

/-- One event keeps a wired page wired and the dropdown invariant true. -/
theorem dispatchEvent_synced (p : Page) (hw : Wired p) (hs : Synced p) (ev : Event) :
    ∃ p1 ran, dispatchEvent ev p = .ok (p1, ran) ∧ Wired p1 ∧ Synced p1 := by
  obtain ⟨m, b, hm, hb, ha⟩ := hs
  obtain ⟨p1, ran, hsame, _, heq⟩ := dispatchEvent_wired p hw ev m b hm hb
  have hw1 : Wired p1 := wired_of_sameProfile hw hsame
  have hs1 : Synced p1 := synced_of_sameProfile ⟨m, b, hm, hb, ha⟩ hsame
  rw [heq]
  split_ifs
  · exact ⟨_, _, rfl, wired_afterToggle hw1 m b, synced_afterToggle p1 m b⟩
  · exact ⟨_, _, rfl, wired_afterClose hw1 m b, synced_afterClose p1 m b⟩
  · exact ⟨_, _, rfl, hw1, hs1⟩
  · exact ⟨_, _, rfl, wired_afterClose hw1 m b, synced_afterClose p1 m b⟩
  · exact ⟨_, _, rfl, hw1, hs1⟩
  · exact ⟨_, _, rfl, hw1, hs1⟩

theorem dispatchAll_synced (evs : List Event) (p : Page) (hw : Wired p) (hs : Synced p) :
    ∃ p1, dispatchAll evs p = .ok p1 ∧ Wired p1 ∧ Synced p1 := by
  induction evs generalizing p with
  | nil => exact ⟨p, rfl, hw, hs⟩
  | cons ev rest ih =>
    obtain ⟨p1, ran, heq, hw1, hs1⟩ := dispatchEvent_synced p hw hs ev
    obtain ⟨p2, heq2, hw2, hs2⟩ := ih p1 hw1 hs1
    exact ⟨p2, by simp only [dispatchAll, heq, heq2], hw2, hs2⟩

/-- Events never raise on a wired page and keep it wired. -/
theorem dispatchAll_wired (evs : List Event) (p : Page) (hw : Wired p) :
    ∃ p1, dispatchAll evs p = .ok p1 ∧ Wired p1 := by
  induction evs generalizing p with
  | nil => exact ⟨p, rfl, hw⟩
  | cons ev rest ih =>
    obtain ⟨w, m, b, _, hm, hb⟩ := wired_regions hw
    obtain ⟨p1, ran, hsame, _, heq⟩ := dispatchEvent_wired p hw ev m b hm hb
    have hw1 : Wired p1 := wired_of_sameProfile hw hsame
    have hstep : ∃ p2 ran2, dispatchEvent ev p = .ok (p2, ran2) ∧ Wired p2 := by
      rw [heq]
      split_ifs
      · exact ⟨_, _, rfl, wired_afterToggle hw1 m b⟩
      · exact ⟨_, _, rfl, wired_afterClose hw1 m b⟩
      · exact ⟨_, _, rfl, hw1⟩
      · exact ⟨_, _, rfl, wired_afterClose hw1 m b⟩
      · exact ⟨_, _, rfl, hw1⟩
      · exact ⟨_, _, rfl, hw1⟩
    obtain ⟨p2, ran2, heq2, hw2⟩ := hstep
    obtain ⟨p3, heq3, hw3⟩ := ih p2 hw2
    exact ⟨p3, by simp only [dispatchAll, heq2, heq3], hw3⟩

theorem dispatchAll_single (ev : Event) (p p1 : Page) (ran : List Handler)
    (h : dispatchEvent ev p = .ok (p1, ran)) : dispatchAll [ev] p = .ok p1 := by
  simp only [dispatchAll, h]

theorem dispatchAll_pair (ev1 ev2 : Event) (p p1 p2 : Page) (ran1 ran2 : List Handler)
    (h1 : dispatchEvent ev1 p = .ok (p1, ran1)) (h2 : dispatchEvent ev2 p1 = .ok (p2, ran2)) :
    dispatchAll [ev1, ev2] p = .ok p2 := by
  simp only [dispatchAll, h1, h2]

/-- C5: on a page whose menu starts hidden with the button's aria-expanded
"false", after `initializeApp` every sequence of events (clicks anywhere,
key presses, anything else) is handled without raising and ends in a state
where aria-expanded is "true" exactly when the menu is visible and "false"
exactly when it is hidden; a click on the toggle button opens the menu and
an Escape key press after it ends hidden with aria-expanded "false". -/
theorem profileDropdown_synced (p0 : Page) (m0 b0 : Element)
    (hl : p0.listeners = []) (hw : p0.wrapper.isSome = true)
    (hm : p0.dropdownMenu = some m0) (hb : p0.toggleButton = some b0)
    (hhid : m0.contains "hidden" = true)
    (haria : b0.getAttribute "aria-expanded" = some "false") :
    ∃ p1, initializeApp p0 = .ok p1 ∧
      (∀ evs : List Event, ∃ p m b, dispatchAll evs p1 = .ok p ∧
        p.dropdownMenu = some m ∧ p.toggleButton = some b ∧
        (b.getAttribute "aria-expanded" = some "true" ↔ m.contains "hidden" = false) ∧
        (b.getAttribute "aria-expanded" = some "false" ↔ m.contains "hidden" = true)) ∧
      (∀ click key : Event, click.evType = "click" → Node.toggleButton ∈ click.path →
        key.evType = "keydown" → key.key = "Escape" →
        ∃ p2 m2 b2 p3 m3 b3, dispatchAll [click] p1 = .ok p2 ∧
          p2.dropdownMenu = some m2 ∧ p2.toggleButton = some b2 ∧
          m2.contains "hidden" = false ∧ b2.getAttribute "aria-expanded" = some "true" ∧
          dispatchAll [click, key] p1 = .ok p3 ∧
          p3.dropdownMenu = some m3 ∧ p3.toggleButton = some b3 ∧
          m3.contains "hidden" = true ∧ b3.getAttribute "aria-expanded" = some "false") := by
  obtain ⟨p1, hinit, hw1, hm1, hb1, _⟩ := initializeApp_wired p0 hl hw (by simp [hb]) (by simp [hm])
  have hs1 : Synced p1 :=
    ⟨m0, b0, hm1.trans hm, hb1.trans hb, by rw [haria, hhid]; rfl⟩
  refine ⟨p1, hinit, ?_, ?_⟩
  · intro evs
    obtain ⟨p, hp, _, m, b, hpm, hpb, ha⟩ := dispatchAll_synced evs p1 hw1 hs1
    refine ⟨p, m, b, hp, hpm, hpb, ?_, ?_⟩
    · rw [ha]
      cases m.contains "hidden" <;> simp [boolToString]
    · rw [ha]
      cases m.contains "hidden" <;> simp [boolToString]
  · intro click key hclick hpath hkey hesc
    obtain ⟨q1, ran1, hsame1, _, heq1⟩ :=
      dispatchEvent_wired p1 hw1 click m0 b0 (hm1.trans hm) (hb1.trans hb)
    rw [if_pos ⟨hclick, hpath⟩] at heq1
    have hwq : Wired (afterToggle q1 m0 b0) := wired_afterToggle (wired_of_sameProfile hw1 hsame1) m0 b0
    have hvis : (m0.toggle "hidden").1.contains "hidden" = false := by
      rw [contains_toggle, hhid]; rfl
    obtain ⟨q2, ran2, hsame2, _, heq2⟩ := dispatchEvent_wired (afterToggle q1 m0 b0) hwq key
      (m0.toggle "hidden").1
      (b0.setAttribute "aria-expanded" (boolToString (!(m0.toggle "hidden").1.contains "hidden")))
      rfl rfl
    have hnc : ¬ (key.evType = "click" ∧ Node.toggleButton ∈ key.path) := by
      rw [hkey]
      rintro ⟨h, _⟩
      exact absurd h (by decide)
    have hnc2 : ¬ (key.evType = "click") := by
      rw [hkey]
      decide
    rw [if_neg hnc, if_neg hnc2, if_pos hkey, if_pos ⟨hesc, hvis⟩] at heq2
    refine ⟨_, _, _, _, _, _, dispatchAll_single _ _ _ _ heq1, rfl, rfl, hvis, ?_,
      dispatchAll_pair _ _ _ _ _ _ _ heq1 heq2, rfl, rfl, contains_add _ _, ?_⟩
    · simp [Element.getAttribute, Element.setAttribute, getAttr_setAttr_self, hvis, boolToString]
    · simp [Element.getAttribute, Element.setAttribute, getAttr_setAttr_self]

/-- A toggle click followed by Escape on the sample page. -/
theorem profileDropdown_synced_witness :
    ∃ p1, initializeApp samplePage = .ok p1 ∧
      (∀ evs : List Event, ∃ p m b, dispatchAll evs p1 = .ok p ∧
        p.dropdownMenu = some m ∧ p.toggleButton = some b ∧
        (b.getAttribute "aria-expanded" = some "true" ↔ m.contains "hidden" = false) ∧
        (b.getAttribute "aria-expanded" = some "false" ↔ m.contains "hidden" = true)) ∧
      (∀ click key : Event, click.evType = "click" → Node.toggleButton ∈ click.path →
        key.evType = "keydown" → key.key = "Escape" →
        ∃ p2 m2 b2 p3 m3 b3, dispatchAll [click] p1 = .ok p2 ∧
          p2.dropdownMenu = some m2 ∧ p2.toggleButton = some b2 ∧
          m2.contains "hidden" = false ∧ b2.getAttribute "aria-expanded" = some "true" ∧
          dispatchAll [click, key] p1 = .ok p3 ∧
          p3.dropdownMenu = some m3 ∧ p3.toggleButton = some b3 ∧
          m3.contains "hidden" = true ∧ b3.getAttribute "aria-expanded" = some "false") :=
  profileDropdown_synced samplePage ⟨["hidden"], [], "", ""⟩
    ⟨[], [("aria-expanded", "false")], "", ""⟩ rfl rfl rfl rfl (by decide) (by decide)

theorem count_of_all_toggleSidebar (ran : List Handler) (h : ∀ x ∈ ran, x = Handler.toggleSidebar)
    (a : Handler) (ha : a ≠ Handler.toggleSidebar) : a ∉ ran :=
  fun hmem => ha (h a hmem)

/-- C6: in any state reached after `initializeApp` (on a page that had no
listeners and has the wrapper, the button and the menu), a click is handled
without raising and: with the menu visible, a click inside the wrapper that
does not pass through the toggle button leaves the menu and the button as
they are; with the menu visible, a click outside the wrapper leaves the menu
hidden; a click on the toggle button, inside or outside the wrapper, flips
the menu exactly once: the button's listener runs once and the document's
click listener does not run. -/
theorem profileDropdown_clicks (p0 : Page) (evs : List Event) (ev : Event)
    (hl : p0.listeners = []) (hw : p0.wrapper.isSome = true)
    (hb : p0.toggleButton.isSome = true) (hm : p0.dropdownMenu.isSome = true)
    (hclick : ev.evType = "click") :
    ∃ p1 p m b q ran m1, initializeApp p0 = .ok p1 ∧ dispatchAll evs p1 = .ok p ∧
      p.dropdownMenu = some m ∧ p.toggleButton = some b ∧
      dispatchEvent ev p = .ok (q, ran) ∧ q.dropdownMenu = some m1 ∧
      (m.contains "hidden" = false → Node.wrapper ∈ ev.path → Node.toggleButton ∉ ev.path →
        m1.contains "hidden" = false ∧ q.dropdownMenu = p.dropdownMenu ∧
        q.toggleButton = p.toggleButton) ∧
      (m.contains "hidden" = false → Node.wrapper ∉ ev.path → m1.contains "hidden" = true) ∧
      (Node.toggleButton ∈ ev.path →
        m1.contains "hidden" = (!m.contains "hidden") ∧ m1 = (m.toggle "hidden").1 ∧
        Handler.onDocumentClick ∉ ran ∧ ran.count Handler.onToggleButtonClick = 1) := by
  obtain ⟨p1, hinit, hw1, _, _, _⟩ := initializeApp_wired p0 hl hw hb hm
  obtain ⟨p, hp, hwp⟩ := dispatchAll_wired evs p1 hw1
  obtain ⟨_, m, b, _, hpm, hpb⟩ := wired_regions hwp
  obtain ⟨q1, ran1, hsame, hran, heq⟩ := dispatchEvent_wired p hwp ev m b hpm hpb
  by_cases htog : Node.toggleButton ∈ ev.path
  · rw [if_pos ⟨hclick, htog⟩] at heq
    refine ⟨p1, p, m, b, _, _, (m.toggle "hidden").1, hinit, hp, hpm, hpb, heq, rfl, ?_, ?_, ?_⟩
    · intro _ _ hno
      exact absurd htog hno
    · intro hvis _
      rw [contains_toggle, hvis]
      rfl
    · intro _
      refine ⟨contains_toggle _ _, rfl, ?_, ?_⟩
      · intro hmem
        rcases List.mem_append.mp hmem with h | h
        · exact absurd (hran _ h) (by decide)
        · simp at h
      · rw [List.count_append, List.count_eq_zero_of_not_mem
          (count_of_all_toggleSidebar ran1 hran _ (by decide))]
        rfl
  · have hnc : ¬ (ev.evType = "click" ∧ Node.toggleButton ∈ ev.path) := fun h => htog h.2
    rw [if_neg hnc, if_pos hclick] at heq
    by_cases hclose : Node.wrapper ∉ ev.path ∧ m.contains "hidden" = false
    · rw [if_pos hclose] at heq
      refine ⟨p1, p, m, b, _, _, m.add "hidden", hinit, hp, hpm, hpb, heq, rfl, ?_, ?_, ?_⟩
      · intro _ hin _
        exact absurd hin hclose.1
      · intro _ _
        exact contains_add _ _
      · intro h
        exact absurd h htog
    · rw [if_neg hclose] at heq
      refine ⟨p1, p, m, b, _, _, m, hinit, hp, hpm, hpb, heq, hsame.2.2.1.trans hpm, ?_, ?_, ?_⟩
      · intro hvis _ _
        exact ⟨hvis, hsame.2.2.1, hsame.2.1⟩
      · intro hvis hout
        exact absurd ⟨hout, hvis⟩ hclose
      · intro h
        exact absurd h htog

/-- The sample page with the menu opened by a first click, then a click on
an element inside the wrapper. -/
theorem profileDropdown_clicks_witness :
    ∃ p1 p m b q ran m1, initializeApp samplePage = .ok p1 ∧
      dispatchAll [⟨"click", "", [Node.toggleButton, Node.wrapper]⟩] p1 = .ok p ∧
      p.dropdownMenu = some m ∧ p.toggleButton = some b ∧
      dispatchEvent ⟨"click", "", [Node.other 0, Node.dropdownMenu, Node.wrapper]⟩ p
        = .ok (q, ran) ∧ q.dropdownMenu = some m1 ∧
      (m.contains "hidden" = false →
        Node.wrapper ∈ [Node.other 0, Node.dropdownMenu, Node.wrapper] →
        Node.toggleButton ∉ [Node.other 0, Node.dropdownMenu, Node.wrapper] →
        m1.contains "hidden" = false ∧ q.dropdownMenu = p.dropdownMenu ∧
        q.toggleButton = p.toggleButton) ∧
      (m.contains "hidden" = false →
        Node.wrapper ∉ [Node.other 0, Node.dropdownMenu, Node.wrapper] →
        m1.contains "hidden" = true) ∧
      (Node.toggleButton ∈ [Node.other 0, Node.dropdownMenu, Node.wrapper] →
        m1.contains "hidden" = (!m.contains "hidden") ∧ m1 = (m.toggle "hidden").1 ∧
        Handler.onDocumentClick ∉ ran ∧ ran.count Handler.onToggleButtonClick = 1) :=
  profileDropdown_clicks samplePage [⟨"click", "", [Node.toggleButton, Node.wrapper]⟩]
    ⟨"click", "", [Node.other 0, Node.dropdownMenu, Node.wrapper]⟩ rfl rfl rfl rfl rfl

/-! ## Paths with an empty identifier -/

/-- C10, as stated, fails: for the path `/app/` the identifier is empty, and
of the two navigation entries of the page the one with the empty href is
marked active as well as the one pointing to "dashboard.html", so the
"dashboard.html" entry is not the one entry marked. -/
theorem setActiveNavLink_empty_href_counterexample :
    pageIdentifier emptyHrefPage.pathname = "" ∧
    emptyHrefPage.anchors =
      [ ⟨⟨[], [("href", "dashboard.html")], "Dashboard", ""⟩, true, true, some "Dashboard"⟩,
        ⟨⟨[], [("href", "")], "Here", ""⟩, true, true, some "Here"⟩ ] ∧
    (setActiveNavLink emptyHrefPage).toOption.map Page.anchors = some
      [ ⟨⟨["active"], [("href", "dashboard.html"), ("aria-current", "page")], "Dashboard", ""⟩,
          true, true, some "Dashboard"⟩,
        ⟨⟨["active"], [("href", ""), ("aria-current", "page")], "Here", ""⟩,
          true, true, some "Here"⟩ ] := by
  decide

/-- C10, amended: the identifier `path.substring(path.lastIndexOf('/') + 1)`
is the part of the path after its last `/` (the whole path when there is
none), has no `/` in it, and is empty exactly when the path is empty or ends
in `/`. For such a path `updatePageHeader` replaces the empty identifier by
"index.html" and shows that descriptor, while `setActiveNavLink` keeps it
empty: the navigation entries marked active are exactly those whose href is
"dashboard.html" or is itself empty, and every other anchor is left as it
was. -/
theorem pageIdentifier_root (p : Page) :
    (('/' ∉ p.pathname.data ∧ pageIdentifier p.pathname = p.pathname) ∨
      (∃ pre, p.pathname.data = pre ++ '/' :: (pageIdentifier p.pathname).data)) ∧
    '/' ∉ (pageIdentifier p.pathname).data ∧
    (pageIdentifier p.pathname = "" ↔
      (p.pathname = "" ∨ p.pathname.data.getLast? = some '/')) ∧
    (pageIdentifier p.pathname = "" →
      orString (pageIdentifier p.pathname) "index.html" = "index.html" ∧
      (∀ t s g, p.titleEl = some t → p.subtitleEl = some s → p.tagEl = some g →
        ∃ p1 t1 s1 g1, updatePageHeader p = .ok p1 ∧
          p1.titleEl = some t1 ∧ p1.subtitleEl = some s1 ∧ p1.tagEl = some g1 ∧
          pageDetails.lookup "index.html" =
            some ⟨t1.textContent, s1.textContent, !g1.contains "hidden"⟩) ∧
      (∃ p2, setActiveNavLink p = .ok p2 ∧ p2 = { p with anchors := p2.anchors } ∧
        p2.anchors.length = p.anchors.length ∧
        ∀ (i : Nat) (a : Anchor), p.anchors[i]? = some a →
          ((a.isMatch ".sidebar-menu-item a" = true ∧
              (a.elem.getAttribute "href" = some "dashboard.html" ∨
                a.elem.getAttribute "href" = some "") →
            ∃ a2 : Anchor, p2.anchors[i]? = some a2 ∧
              a2 = { a with elem := (a.elem.add "active").setAttribute "aria-current" "page" } ∧
              a2.elem.contains "active" = true ∧
              a2.elem.getAttribute "aria-current" = some "page") ∧
          (¬ (a.isMatch ".sidebar-menu-item a" = true ∧
              (a.elem.getAttribute "href" = some "dashboard.html" ∨
                a.elem.getAttribute "href" = some "")) →
            p2.anchors[i]? = some a)))) := by
  refine ⟨?_, pageIdentifier_no_slash _, pageIdentifier_eq_empty_iff _, ?_⟩
  · rcases pageIdentifier_spec p.pathname with h | ⟨pre, h, _⟩
    · exact Or.inl h
    · exact Or.inr ⟨pre, h⟩
  · intro hid
    refine ⟨by rw [hid]; rfl, ?_, ?_⟩
    · intro t s g ht hs hg
      have h := updatePageHeader_of_descriptor p t s g
        ⟨"Dashboard", "Manage your crypto and fiat balances", true⟩ ht hs hg
        (by rw [hid]; rfl)
      refine ⟨_, _, _, _, h, rfl, rfl, rfl, ?_⟩
      simp [Element.setTextContent, contains_toggleForce, pageDetails, List.lookup]
    · refine ⟨_, setActiveNavLink_map p, rfl, by simp, ?_⟩
      intro i a ha
      have hi : (p.anchors.map (fun a =>
          if a.isMatch ".sidebar-menu-item a" = true then
            activeStep (pageIdentifier p.pathname) a else a))[i]? =
          some (if a.isMatch ".sidebar-menu-item a" = true then
            activeStep (pageIdentifier p.pathname) a else a) := by
        rw [List.getElem?_map, ha]
        rfl
      constructor
      · rintro ⟨hm, hhref⟩
        refine ⟨{ a with elem := (a.elem.add "active").setAttribute "aria-current" "page" },
          ?_, rfl, ?_, ?_⟩
        · show (List.map _ p.anchors)[i]? = _
          rw [hi, if_pos hm, hid]
          rcases hhref with h | h
          · simp [activeStep, h]
          · simp [activeStep, h]
        · simp [Element.contains, Element.setAttribute, mem_classList_add]
        · simp [Element.getAttribute, Element.setAttribute, getAttr_setAttr_self]
      · intro hneg
        show (List.map _ p.anchors)[i]? = _
        rw [hi]
        by_cases hm : a.isMatch ".sidebar-menu-item a" = true
        · rw [if_pos hm, hid]
          have hcond : ¬ (a.elem.getAttribute "href" = some "dashboard.html" ∨
              a.elem.getAttribute "href" = some "") := fun h => hneg ⟨hm, h⟩
          simp only [not_or] at hcond
          simp [activeStep, hcond.1, hcond.2]
        · rw [if_neg hm]

end DashboardUI
